import Mathlib

/-!
Verification of the gdot-soundwall layout engine (src/gdot_soundwall).

Shallow embedding conventions:
* Python floats are modelled as exact rationals (ℚ); all the dimensional
  constants of `config.py` are the rationals denoted by their decimal literals.
* Trigonometric functions (`math.sin`, `math.cos`, `math.atan2`) and `math.pi`
  are not rational-valued; they are abstracted into a `Trig` oracle that is a
  parameter of every definition that needs them.  Theorems quantified over the
  oracle hold for the real trigonometric functions in particular; concrete
  witnesses instantiate the oracle with rational stand-ins.
* Python exceptions are modelled with `Option`: a function that can `raise`
  returns `none` in exactly the raising cases.
* Python `float % m` (sign follows the modulus) is `pymod`.
-/

namespace GdotSoundwall

/-- Tolerance 1e-6 used throughout the source. -/
def tol6 : ℚ := 1 / 1000000

/-- Python float modulo: the result has the sign of the modulus
(`a - m * floor (a / m)`).  (For `m = 0` Python raises; unused here.) -/
def pymod (a m : ℚ) : ℚ := a - m * ⌊a / m⌋

/-- Trigonometric oracle abstracting `math.sin`, `math.cos`, `math.atan2`,
`math.pi`, which are not rational-valued. -/
structure Trig where
  sin : ℚ → ℚ
  cos : ℚ → ℚ
  atan2 : ℚ → ℚ → ℚ
  pi : ℚ
  sqrt : ℚ → ℚ

/-- A trivial concrete oracle for witnesses whose results do not depend on
trigonometric values. -/
def trivialTrig : Trig where
  sin := fun _ => 0
  cos := fun _ => 1
  atan2 := fun _ _ => 0
  pi := 0
  sqrt := fun _ => 0

/-! ### utils/math_helpers.py -/

/-- Source `normalize_angle`: normalize angle to `[0, 2*pi)`. -/
def normalize_angle (T : Trig) (angle : ℚ) : ℚ :=
  let a := pymod angle (2 * T.pi)
  if a < 0 then a + 2 * T.pi else a

/-- Source `offset_point`: point offset perpendicular to a bearing. -/
def offset_point (T : Trig) (easting northing bearing offset : ℚ) : ℚ × ℚ :=
  let perp := bearing + T.pi / 2
  (easting + offset * T.sin perp, northing + offset * T.cos perp)

/-- Source `parabolic_curve_elevation`: elevation on a symmetric parabolic
vertical curve. -/
def parabolic_curve_elevation (station pvi_station pvi_elevation grade_in
    grade_out curve_length : ℚ) : ℚ :=
  let bvc_station := pvi_station - curve_length / 2
  let bvc_elevation := pvi_elevation - grade_in * (curve_length / 2)
  let x := station - bvc_station
  let r := (grade_out - grade_in) / curve_length
  bvc_elevation + grade_in * x + (r / 2) * x * x

/-! ### landxml/profile.py -/

/-- Source `PVI` dataclass. -/
structure PVI where
  station : ℚ
  elevation : ℚ
  curve_length : ℚ
deriving DecidableEq

/-- Source `PVI.has_curve`. -/
def PVI.has_curve (p : PVI) : Bool := p.curve_length > 0

/-- Source `PVI.bvc_station`. -/
def PVI.bvc_station (p : PVI) : ℚ := p.station - p.curve_length / 2

/-- Source `PVI.evc_station`. -/
def PVI.evc_station (p : PVI) : ℚ := p.station + p.curve_length / 2

/-- Source `VerticalProfile` dataclass (the inert `name` field is dropped). -/
structure VerticalProfile where
  pvis : List PVI
deriving DecidableEq

/-- Source `VerticalProfile._grade_between`. -/
def grade_between (pvi1 pvi2 : PVI) : ℚ :=
  let ds := pvi2.station - pvi1.station
  if |ds| < 1 / 10000000000 then 0
  else (pvi2.elevation - pvi1.elevation) / ds

/-- The `for i, pvi in enumerate(self.pvis)` curve-search loop of
`elevation_at_station`: first PVI (with its index) whose vertical curve
covers the station. -/
def curveHit (pvis : List PVI) (station : ℚ) : Option (ℕ × PVI) :=
  pvis.enum.find? fun ip =>
    ip.2.has_curve && decide (ip.2.bvc_station ≤ station)
      && decide (station ≤ ip.2.evc_station)

/-- The tangent-section search loop of `elevation_at_station`: first adjacent
PVI pair whose (curve-adjusted) interval brackets the station. -/
def tangentHit (pvis : List PVI) (station : ℚ) : Option (PVI × PVI) :=
  (pvis.zip pvis.tail).find? fun pp =>
    let sta1 := if pp.1.has_curve then pp.1.evc_station else pp.1.station
    let sta2 := if pp.2.has_curve then pp.2.bvc_station else pp.2.station
    decide (sta1 ≤ station) && decide (station ≤ sta2)

/-- Source `VerticalProfile.elevation_at_station`.  The source's unused local
bindings (`elev1`, `elev_at_pvi1_evc`, computed and then discarded before the
`return`) are omitted; they do not affect the result. -/
def VerticalProfile.elevation_at_station (prof : VerticalProfile)
    (station : ℚ) : ℚ :=
  match prof.pvis with
  | [] => 0
  | [p] => p.elevation
  | p0 :: p1 :: rest =>
    let pvis := p0 :: p1 :: rest
    match curveHit pvis station with
    | some (i, pvi) =>
      let grade_in :=
        if i > 0 then grade_between (pvis.getD (i - 1) pvi) pvi else 0
      let grade_out :=
        if i < pvis.length - 1 then grade_between pvi (pvis.getD (i + 1) pvi)
        else 0
      parabolic_curve_elevation station pvi.station pvi.elevation grade_in
        grade_out pvi.curve_length
    | none =>
      match tangentHit pvis station with
      | some (pvi1, pvi2) =>
        pvi1.elevation + grade_between pvi1 pvi2 * (station - pvi1.station)
      | none =>
        if station ≤ p0.station then
          p0.elevation + grade_between p0 p1 * (station - p0.station)
        else if station ≥ (pvis.getLastD p0).station then
          let plast := pvis.getLastD p0
          let p2nd := pvis.getD (pvis.length - 2) p0
          plast.elevation + grade_between p2nd plast * (station - plast.station)
        else 0

/-- The concrete profile of claim C3: PVIs (0, 100), (50, 105, curve 20),
(100, 100). -/
def profileC3 : VerticalProfile :=
  { pvis := [{ station := 0, elevation := 100, curve_length := 0 },
             { station := 50, elevation := 105, curve_length := 20 },
             { station := 100, elevation := 100, curve_length := 0 }] }

/-! ### config.py (dimensional constants, exact rationals of the decimals) -/

def POST_SPACING_MAX : ℚ := 3.048
def PANEL_HEIGHT : ℚ := 0.8128
def PANEL_THICKNESS : ℚ := 0.1016
def CAP_HEIGHT : ℚ := 0.1524
def CAP_OVERHANG : ℚ := 0.0508
def EXPANSION_JOINT_SPACING : ℚ := 24.384
def EXPANSION_JOINT_GAP : ℚ := 0.0254
def CONTRACTION_JOINT_SPACING : ℚ := 6.096
def CAISSON_DIAMETER : ℚ := 0.762
def CAISSON_DEPTH : ℚ := 3.048
def SPREAD_LENGTH : ℚ := 1.524
def SPREAD_WIDTH : ℚ := 1.524
def SPREAD_DEPTH : ℚ := 0.762
def CONTINUOUS_WIDTH : ℚ := 0.914
def CONTINUOUS_DEPTH : ℚ := 0.610
def DRAINAGE_SLOT_WIDTH : ℚ := 0.1016
def DRAINAGE_SLOT_HEIGHT : ℚ := 0.0508
def DRAINAGE_SLOT_SPACING : ℚ := 6.096
def DEFAULT_WALL_HEIGHT : ℚ := 4.572

/-! ### landxml/surface.py -/

/-- Source `TerrainSurface`: vertices as (E, N, Z), triangles as index
triples (the inert `name` field is dropped). -/
structure TerrainSurface where
  vertices : List (ℚ × ℚ × ℚ)
  triangles : List (ℕ × ℕ × ℕ)
deriving DecidableEq

/-- Vertex lookup.  The data-model invariant guarantees valid indices; an
out-of-range index (a `raise` in the numpy source) is given the inert default
`(0, 0, 0)`, which makes every triangle touching it degenerate. -/
def TerrainSurface.vertexD (S : TerrainSurface) (i : ℕ) : ℚ × ℚ × ℚ :=
  S.vertices.getD i (0, 0, 0)

/-- Source `TerrainSurface._point_in_triangle`: barycentric containment test
returning the interpolated elevation. -/
def point_in_triangle (px py x0 y0 z0 x1 y1 z1 x2 y2 z2 : ℚ) : Option ℚ :=
  let denom := (y1 - y2) * (x0 - x2) + (x2 - x1) * (y0 - y2)
  if |denom| < 1 / 1000000000000 then none
  else
    let lambda0 := ((y1 - y2) * (px - x2) + (x2 - x1) * (py - y2)) / denom
    let lambda1 := ((y2 - y0) * (px - x2) + (x0 - x2) * (py - y2)) / denom
    let lambda2 := 1 - lambda0 - lambda1
    let tolNeg : ℚ := -(1 / 1000000)
    if lambda0 ≥ tolNeg ∧ lambda1 ≥ tolNeg ∧ lambda2 ≥ tolNeg then
      some (lambda0 * z0 + lambda1 * z1 + lambda2 * z2)
    else none

/-- The `for tri_idx in range(len(self.triangles))` loop of
`TerrainSurface.elevation_at`: first triangle that yields an elevation. -/
def elevationLoop (S : TerrainSurface) (easting northing : ℚ) :
    List (ℕ × ℕ × ℕ) → Option ℚ
  | [] => none
  | t :: rest =>
    let v0 := S.vertexD t.1
    let v1 := S.vertexD t.2.1
    let v2 := S.vertexD t.2.2
    match point_in_triangle easting northing v0.1 v0.2.1 v0.2.2
        v1.1 v1.2.1 v1.2.2 v2.1 v2.2.1 v2.2.2 with
    | some elev => some elev
    | none => elevationLoop S easting northing rest

/-- Source `TerrainSurface.elevation_at`: TIN barycentric elevation query,
`none` when the point is outside the TIN. -/
def TerrainSurface.elevation_at (S : TerrainSurface)
    (easting northing : ℚ) : Option ℚ :=
  if S.triangles = [] ∨ S.vertices = [] then none
  else elevationLoop S easting northing S.triangles

/-- Modelled from the spec's words (claim C7, spec section 4.D): the
per-triangle barycentric rule — skip when the denominator is smaller than
1e-12 in absolute value, return the interpolated elevation when all three
barycentric coordinates are at least -1e-6. -/
def triangleElevationSpec (S : TerrainSurface) (easting northing : ℚ)
    (t : ℕ × ℕ × ℕ) : Option ℚ :=
  let (x0, y0, z0) := S.vertexD t.1
  let (x1, y1, z1) := S.vertexD t.2.1
  let (x2, y2, z2) := S.vertexD t.2.2
  let denom := (y1 - y2) * (x0 - x2) + (x2 - x1) * (y0 - y2)
  if |denom| < 1 / 1000000000000 then none
  else
    let l0 := ((y1 - y2) * (easting - x2) + (x2 - x1) * (northing - y2)) / denom
    let l1 := ((y2 - y0) * (easting - x2) + (x0 - x2) * (northing - y2)) / denom
    let l2 := 1 - l0 - l1
    if l0 ≥ -(1 / 1000000) ∧ l1 ≥ -(1 / 1000000) ∧ l2 ≥ -(1 / 1000000) then
      some (l0 * z0 + l1 * z1 + l2 * z2)
    else none

/-- Modelled from the spec's words (claim C7): linear scan, first hit wins,
absent when no triangle contains the point. -/
def elevationAtSpec (S : TerrainSurface) (easting northing : ℚ) : Option ℚ :=
  S.triangles.findSome? (triangleElevationSpec S easting northing)

/-! ### landxml/alignment.py -/

/-- Source `LineSegment` (tangent); `bearing` is stored resolved, as after
`__post_init__`. -/
structure LineSegment where
  start_station : ℚ
  end_station : ℚ
  start_easting : ℚ
  start_northing : ℚ
  end_easting : ℚ
  end_northing : ℚ
  bearing : ℚ
deriving DecidableEq

/-- Source `LineSegment.point_at_station`. -/
def LineSegment.point_at_station (T : Trig) (seg : LineSegment)
    (station : ℚ) : ℚ × ℚ × ℚ :=
  let dist := station - seg.start_station
  (seg.start_easting + dist * T.sin seg.bearing,
   seg.start_northing + dist * T.cos seg.bearing,
   seg.bearing)

/-- Source `ArcSegment` (circular arc). -/
structure ArcSegment where
  start_station : ℚ
  end_station : ℚ
  start_easting : ℚ
  start_northing : ℚ
  end_easting : ℚ
  end_northing : ℚ
  radius : ℚ
  center_easting : ℚ
  center_northing : ℚ
  is_clockwise : Bool
  start_bearing : ℚ
  end_bearing : ℚ
deriving DecidableEq

/-- Source `ArcSegment.point_at_station`. -/
def ArcSegment.point_at_station (T : Trig) (seg : ArcSegment)
    (station : ℚ) : ℚ × ℚ × ℚ :=
  let dist := station - seg.start_station
  let angle_traveled := dist / seg.radius
  let start_radial := T.atan2 (seg.start_easting - seg.center_easting)
    (seg.start_northing - seg.center_northing)
  let radial :=
    if seg.is_clockwise then start_radial + angle_traveled
    else start_radial - angle_traveled
  let bearing :=
    if seg.is_clockwise then normalize_angle T (radial + T.pi / 2)
    else normalize_angle T (radial - T.pi / 2)
  (seg.center_easting + seg.radius * T.sin radial,
   seg.center_northing + seg.radius * T.cos radial,
   bearing)

/-- Python `int()` truncation toward zero for a rational. -/
def pytrunc (q : ℚ) : ℤ := if q ≥ 0 then ⌊q⌋ else -⌊-q⌋

/-- Source `SpiralSegment` (clothoid).  A radius of `none` models the float
`inf` of the source (curvature 0). -/
structure SpiralSegment where
  start_station : ℚ
  end_station : ℚ
  start_easting : ℚ
  start_northing : ℚ
  end_easting : ℚ
  end_northing : ℚ
  start_radius : Option ℚ
  end_radius : Option ℚ
  start_bearing : ℚ
  is_clockwise : Bool
deriving DecidableEq

/-- Source `SpiralSegment.point_at_station`: linear curvature interpolation,
trapezoidal position integration. -/
def SpiralSegment.point_at_station (T : Trig) (seg : SpiralSegment)
    (station : ℚ) : ℚ × ℚ × ℚ :=
  let len := seg.end_station - seg.start_station
  let dist := station - seg.start_station
  let t := if len > 0 then dist / len else 0
  let k_start := match seg.start_radius with
    | none => 0
    | some r => 1 / r
  let k_end := match seg.end_radius with
    | none => 0
    | some r => 1 / r
  let k := k_start + t * (k_end - k_start)
  let avg_k := (k_start + k) / 2
  let delta_bearing₀ := avg_k * dist
  let delta_bearing := if seg.is_clockwise then delta_bearing₀ else -delta_bearing₀
  let bearing := normalize_angle T (seg.start_bearing + delta_bearing)
  let n_steps := (max 10 (pytrunc (dist / (1 / 2)))).toNat
  let step := dist / (n_steps : ℚ)
  let final := (List.range n_steps).foldl
    (fun (acc : ℚ × ℚ × ℚ) i =>
      let (e, n_coord, b) := acc
      let s := ((i : ℚ) + 1 / 2) * step
      let frac := if len > 0 then s / len else 0
      let ki := k_start + frac * (k_end - k_start)
      let db := ki * step * (if seg.is_clockwise then 1 else -1)
      let b_mid := b + db / 2
      (e + step * T.sin b_mid, n_coord + step * T.cos b_mid, b + db))
    (seg.start_easting, seg.start_northing, seg.start_bearing)
  (final.1, final.2.1, bearing)

/-- The closed `{Line, Arc, Spiral}` sum of alignment segment variants. -/
inductive AlignmentSegment where
  | line (seg : LineSegment)
  | arc (seg : ArcSegment)
  | spiral (seg : SpiralSegment)
deriving DecidableEq

/-- Shared `start_station` accessor. -/
def AlignmentSegment.start_station : AlignmentSegment → ℚ
  | .line seg => seg.start_station
  | .arc seg => seg.start_station
  | .spiral seg => seg.start_station

/-- Shared `end_station` accessor. -/
def AlignmentSegment.end_station : AlignmentSegment → ℚ
  | .line seg => seg.end_station
  | .arc seg => seg.end_station
  | .spiral seg => seg.end_station

/-- Variant dispatch of `point_at_station`. -/
def AlignmentSegment.point_at_station (T : Trig) :
    AlignmentSegment → ℚ → ℚ × ℚ × ℚ
  | .line seg => seg.point_at_station T
  | .arc seg => seg.point_at_station T
  | .spiral seg => seg.point_at_station T

/-- Source `HorizontalAlignment` (the inert `name` field is dropped). -/
structure HorizontalAlignment where
  segments : List AlignmentSegment
deriving DecidableEq

/-- Source `HorizontalAlignment.start_station` (0 when empty). -/
def HorizontalAlignment.start_station (a : HorizontalAlignment) : ℚ :=
  match a.segments with
  | [] => 0
  | seg :: _ => seg.start_station

/-- Source `HorizontalAlignment.end_station` (0 when empty). -/
def HorizontalAlignment.end_station (a : HorizontalAlignment) : ℚ :=
  match a.segments.getLast? with
  | none => 0
  | some seg => seg.end_station

/-- The bracket test of the dispatch loop:
`seg.start_station <= station <= seg.end_station + 1e-6`. -/
def segBrackets (station : ℚ) (seg : AlignmentSegment) : Bool :=
  decide (seg.start_station ≤ station)
    && decide (station ≤ seg.end_station + tol6)

/-- Source `HorizontalAlignment.point_at_station`: linear search for the
first segment whose `[start_station, end_station + 1e-6]` bracket contains
the station, clamping extrapolation to the boundary segments.  `none` models
the `raise ValueError` of the final line. -/
def HorizontalAlignment.point_at_station (T : Trig)
    (a : HorizontalAlignment) (station : ℚ) : Option (ℚ × ℚ × ℚ) :=
  match a.segments.find? (segBrackets station) with
  | some seg => some (seg.point_at_station T (min station seg.end_station))
  | none =>
    match a.segments.head?, a.segments.getLast? with
    | some first, some last =>
      if station < a.start_station then
        some (first.point_at_station T first.start_station)
      else if station > a.end_station then
        some (last.point_at_station T last.end_station)
      else none
    | _, _ => none

/-! ### geometry/station_solver.py -/

/-- Source `StationPoint` dataclass. -/
structure StationPoint where
  station : ℚ
  easting : ℚ
  northing : ℚ
  elevation : ℚ
  bearing : ℚ
deriving DecidableEq

/-- Source `StationSolver` (alignment + optional profile). -/
structure StationSolver where
  alignment : HorizontalAlignment
  profile : Option VerticalProfile
deriving DecidableEq

/-- Source `StationSolver.solve`: 3-D point at a station; `none` models the
propagated `ValueError` of an alignment-range failure. -/
def StationSolver.solve (T : Trig) (solver : StationSolver)
    (station offset : ℚ) : Option StationPoint :=
  (solver.alignment.point_at_station T station).map fun enb =>
    let (easting₀, northing₀, bearing) := enb
    let en :=
      if |offset| > tol6 then offset_point T easting₀ northing₀ bearing offset
      else (easting₀, northing₀)
    let elevation :=
      match solver.profile with
      | some prof =>
        if prof.pvis.isEmpty then 0 else prof.elevation_at_station station
      | none => 0
    { station := station, easting := en.1, northing := en.2,
      elevation := elevation, bearing := bearing }

/-- The `while sta <= end_station + 1e-6` loop of
`StationSolver.solve_range`.  The source diverges when `interval ≤ 0` and
the range is nonempty; that (unreachable for the claims, which require
`interval > 0`) case is cut off with an empty result to keep the model
total. -/
def solveRangeAux (T : Trig) (solver : StationSolver)
    (end_station interval offset : ℚ) (sta : ℚ) : Option (List StationPoint) :=
  if h9 : 0 < interval ∧ sta ≤ end_station + tol6 then
    match solver.solve T (min sta end_station) offset with
    | none => none
    | some pt =>
      (solveRangeAux T solver end_station interval offset (sta + interval)).map
        fun pts => pt :: pts
  else some []
termination_by (⌊(end_station + tol6 - sta) / interval⌋ + 1).toNat
decreasing_by
  obtain ⟨hi, hle⟩ := h9
  have hD : 0 ≤ (end_station + tol6 - sta) / interval :=
    div_nonneg (by linarith) hi.le
  have h0 : 0 ≤ ⌊(end_station + tol6 - sta) / interval⌋ := Int.floor_nonneg.mpr hD
  have hsub : (end_station + tol6 - (sta + interval)) / interval
      = (end_station + tol6 - sta) / interval - 1 := by
    field_simp
    ring
  have hsub' : (end_station + tol6 - sta) / interval - 1
      = (end_station + tol6 - sta) / interval - ((1 : ℤ) : ℚ) := by norm_num
  rw [hsub, hsub', Int.floor_sub_int]
  omega

/-- Source `StationSolver.solve_range`: samples at regular intervals. -/
def StationSolver.solve_range (T : Trig) (solver : StationSolver)
    (start_station end_station interval offset : ℚ) :
    Option (List StationPoint) :=
  solveRangeAux T solver end_station interval offset start_station

/-! ### geometry/terrain_sampler.py -/

/-- Source `TerrainSampler` (optional TIN surface). -/
structure TerrainSampler where
  surface : Option TerrainSurface
deriving DecidableEq

/-- Source `TerrainSampler.sample_at_station`: ground elevation at a station,
TIN first, profile elevation as fallback.  `none` models a propagated
alignment `ValueError`. -/
def TerrainSampler.sample_at_station (T : Trig) (sampler : TerrainSampler)
    (solver : StationSolver) (station offset : ℚ) : Option ℚ :=
  match solver.solve T station offset with
  | none => none
  | some point =>
    match sampler.surface with
    | some surf =>
      match surf.elevation_at point.easting point.northing with
      | some elev => some elev
      | none => some point.elevation
    | none => some point.elevation

/-! ### model/ dataclasses (string-valued and constant config metadata
fields are dropped; all fields the engine computes are kept) -/

/-- Source `WallType` enum. -/
inductive WallType where
  | PRECAST
  | MSE_COMPOSITE
deriving DecidableEq

/-- Source `FoundationType` enum. -/
inductive FoundationType where
  | CAISSON
  | SPREAD_FOOTING
  | CONTINUOUS_FOOTING
deriving DecidableEq

/-- Source `JointType` enum. -/
inductive JointType where
  | EXPANSION
  | CONTRACTION
deriving DecidableEq

/-- Source `SteelPost` dataclass. -/
structure SteelPost where
  index : ℕ
  station : ℚ
  easting : ℚ
  northing : ℚ
  ground_elevation : ℚ
  top_elevation : ℚ
  bearing : ℚ
  height : ℚ
deriving DecidableEq

/-- Source `PrecastPanel` dataclass. -/
structure PrecastPanel where
  bay_index : ℕ
  stack_index : ℕ
  station_start : ℚ
  station_end : ℚ
  easting : ℚ
  northing : ℚ
  bottom_elevation : ℚ
  bearing : ℚ
  width : ℚ
  height : ℚ
  thickness : ℚ
  has_drainage_slot : Bool
deriving DecidableEq

/-- Source `PrecastPanel.top_elevation`. -/
def PrecastPanel.top_elevation (p : PrecastPanel) : ℚ :=
  p.bottom_elevation + p.height

/-- Source `Footing` dataclass. -/
structure Footing where
  post_index : ℕ
  foundation_type : FoundationType
  station : ℚ
  easting : ℚ
  northing : ℚ
  top_elevation : ℚ
  bearing : ℚ
  width : ℚ
  length : ℚ
  depth : ℚ
  diameter : ℚ
deriving DecidableEq

/-- Source `make_caisson` with the default dimension arguments. -/
def make_caisson (post_index : ℕ)
    (station easting northing top_elevation bearing : ℚ) : Footing :=
  { post_index := post_index, foundation_type := .CAISSON,
    station := station, easting := easting, northing := northing,
    top_elevation := top_elevation, bearing := bearing,
    width := 0, length := 0, depth := CAISSON_DEPTH,
    diameter := CAISSON_DIAMETER }

/-- Source `make_spread_footing` with the default dimension arguments. -/
def make_spread_footing (post_index : ℕ)
    (station easting northing top_elevation bearing : ℚ) : Footing :=
  { post_index := post_index, foundation_type := .SPREAD_FOOTING,
    station := station, easting := easting, northing := northing,
    top_elevation := top_elevation, bearing := bearing,
    width := SPREAD_WIDTH, length := SPREAD_LENGTH, depth := SPREAD_DEPTH,
    diameter := 0 }

/-- Source `make_continuous_footing` with the default dimension arguments
(never called by the layout engine). -/
def make_continuous_footing (post_index : ℕ)
    (station easting northing top_elevation bearing : ℚ) : Footing :=
  { post_index := post_index, foundation_type := .CONTINUOUS_FOOTING,
    station := station, easting := easting, northing := northing,
    top_elevation := top_elevation, bearing := bearing,
    width := CONTINUOUS_WIDTH, length := 3.048, depth := CONTINUOUS_DEPTH,
    diameter := 0 }

/-- Source `Cap` dataclass. -/
structure Cap where
  bay_index : ℕ
  station_start : ℚ
  station_end : ℚ
  easting : ℚ
  northing : ℚ
  bottom_elevation : ℚ
  bearing : ℚ
  width : ℚ
  depth : ℚ
  height : ℚ
deriving DecidableEq

/-- Source `Joint` dataclass. -/
structure Joint where
  joint_type : JointType
  station : ℚ
  easting : ℚ
  northing : ℚ
  ground_elevation : ℚ
  top_elevation : ℚ
  bearing : ℚ
  gap_width : ℚ
  bay_index : ℕ
deriving DecidableEq

/-- Source `DrainageSlot` dataclass. -/
structure DrainageSlot where
  panel_bay_index : ℕ
  station : ℚ
  easting : ℚ
  northing : ℚ
  elevation : ℚ
  width : ℚ
  height : ℚ
deriving DecidableEq

/-- Source `MSESegment` dataclass (constant-default dimension fields
dropped). -/
structure MSESegment where
  index : ℕ
  station_start : ℚ
  station_end : ℚ
  easting_start : ℚ
  northing_start : ℚ
  easting_end : ℚ
  northing_end : ℚ
  base_elevation : ℚ
  top_elevation : ℚ
  bearing : ℚ
  wall_height : ℚ
deriving DecidableEq

/-- Source `Bay` dataclass. -/
structure Bay where
  index : ℕ
  post_left : SteelPost
  post_right : SteelPost
  panels : List PrecastPanel
  cap : Option Cap
  footing_left : Option Footing
  footing_right : Option Footing
  joints : List Joint
  drainage_slots : List DrainageSlot
deriving DecidableEq

/-- Source `WallLayout` dataclass. -/
structure WallLayout where
  wall_type : WallType
  start_station : ℚ
  end_station : ℚ
  wall_height : ℚ
  foundation_type : FoundationType
  posts : List SteelPost
  panels : List PrecastPanel
  footings : List Footing
  caps : List Cap
  joints : List Joint
  drainage_slots : List DrainageSlot
  bays : List Bay
  mse_segments : List MSESegment
deriving DecidableEq

/-- Source `WallLayout.num_bays`. -/
def WallLayout.num_bays (l : WallLayout) : ℕ := l.bays.length

/-! ### geometry/wall_layout.py -/

/-- Python `or`-defaulting of an optional float argument, as in
`start_station or alignment.start_station`: `None` and the falsy float
`0.0` both select the default. -/
def pyOrQ (x : Option ℚ) (d : ℚ) : ℚ :=
  match x with
  | none => d
  | some v => if v = 0 then d else v

/-- Source `WallLayoutEngine` with the `__init__`-resolved station range. -/
structure WallLayoutEngine where
  alignment : HorizontalAlignment
  profile : Option VerticalProfile
  surface : Option TerrainSurface
  wall_type : WallType
  wall_height : ℚ
  foundation_type : FoundationType
  post_spacing : ℚ
  start_station : ℚ
  end_station : ℚ
  offset : ℚ
deriving DecidableEq

/-- Source `WallLayoutEngine.__init__`: stores the configuration and
resolves `start_station`/`end_station` with Python `or`-defaulting against
the alignment bounds. -/
def mkWallLayoutEngine (alignment : HorizontalAlignment)
    (profile : Option VerticalProfile) (surface : Option TerrainSurface)
    (wall_type : WallType) (wall_height : ℚ)
    (foundation_type : FoundationType) (post_spacing : ℚ)
    (start_station end_station : Option ℚ) (offset : ℚ) : WallLayoutEngine :=
  { alignment := alignment, profile := profile, surface := surface,
    wall_type := wall_type, wall_height := wall_height,
    foundation_type := foundation_type, post_spacing := post_spacing,
    start_station := pyOrQ start_station alignment.start_station,
    end_station := pyOrQ end_station alignment.end_station,
    offset := offset }

/-- The `self.solver` of `__init__`. -/
def WallLayoutEngine.solver (eng : WallLayoutEngine) : StationSolver :=
  { alignment := eng.alignment, profile := eng.profile }

/-- The `self.sampler` of `__init__`. -/
def WallLayoutEngine.sampler (eng : WallLayoutEngine) : TerrainSampler :=
  { surface := eng.surface }

/-- Source `WallLayoutEngine._compute_post_stations`.  (For
`post_spacing = 0` Python raises `ZeroDivisionError`; rational division by
zero yields a single bay instead — the claims all require a positive
spacing.) -/
def WallLayoutEngine.compute_post_stations (eng : WallLayoutEngine) :
    List ℚ :=
  let total_length := eng.end_station - eng.start_station
  let num_bays : ℤ := max 1 ⌈total_length / eng.post_spacing⌉
  let actual_spacing := total_length / (num_bays : ℚ)
  (List.range (num_bays.toNat + 1)).map fun (i : ℕ) =>
    eng.start_station + (i : ℚ) * actual_spacing

/-- The post-construction body of Step 2 of
`WallLayoutEngine._compute_precast`. -/
def WallLayoutEngine.make_post (T : Trig) (eng : WallLayoutEngine)
    (i : ℕ) (station : ℚ) : Option SteelPost := do
  let point ← eng.solver.solve T station eng.offset
  let ground_elev ← eng.sampler.sample_at_station T eng.solver station
    eng.offset
  pure { index := i, station := station, easting := point.easting,
         northing := point.northing, ground_elevation := ground_elev,
         top_elevation := ground_elev + eng.wall_height,
         bearing := point.bearing, height := eng.wall_height }

/-- Source `WallLayoutEngine._make_footing`: caisson for `CAISSON`,
spread footing for every other foundation type (the `else` branch). -/
def WallLayoutEngine.make_footing (eng : WallLayoutEngine)
    (post : SteelPost) : Footing :=
  if eng.foundation_type = .CAISSON then
    make_caisson post.index post.station post.easting post.northing
      post.ground_elevation post.bearing
  else
    make_spread_footing post.index post.station post.easting post.northing
      post.ground_elevation post.bearing

/-- Source `WallLayoutEngine._make_bay`: stacked panels, optional drainage
slot in the bottom panel, cap, and footing references.  (The unguarded
`layout.footings[left.index]` of the source would raise on an out-of-range
index; the model returns `none` there — the engine only ever passes valid
indices.) -/
def WallLayoutEngine.make_bay (T : Trig) (eng : WallLayoutEngine)
    (index : ℕ) (left right : SteelPost) (footings : List Footing) : Bay :=
  let mid_e := (left.easting + right.easting) / 2
  let mid_n := (left.northing + right.northing) / 2
  let bay_width := T.sqrt ((right.easting - left.easting) ^ 2
    + (right.northing - left.northing) ^ 2)
  let ground_elev := min left.ground_elevation right.ground_elevation
  let top_elev := max left.top_elevation right.top_elevation
  let wall_h := top_elev - ground_elev - CAP_HEIGHT
  let num_panels := (max 1 ⌈wall_h / PANEL_HEIGHT⌉).toNat
  let bearing := left.bearing
  let bay_station := (left.station + right.station) / 2
  let dist_from_start := bay_station - eng.start_station
  let has_drainage0 : Bool :=
    decide (|pymod dist_from_start DRAINAGE_SLOT_SPACING| < eng.post_spacing)
  let panels := (List.range num_panels).map fun s =>
    ({ bay_index := index, stack_index := s,
       station_start := left.station, station_end := right.station,
       easting := mid_e, northing := mid_n,
       bottom_elevation := ground_elev + (s : ℚ) * PANEL_HEIGHT,
       bearing := bearing, width := bay_width, height := PANEL_HEIGHT,
       thickness := PANEL_THICKNESS,
       has_drainage_slot := (s == 0) && has_drainage0 } : PrecastPanel)
  let drainage_slots :=
    if has_drainage0 then
      [({ panel_bay_index := index, station := bay_station,
          easting := mid_e, northing := mid_n,
          elevation := ground_elev + DRAINAGE_SLOT_HEIGHT / 2,
          width := DRAINAGE_SLOT_WIDTH,
          height := DRAINAGE_SLOT_HEIGHT } : DrainageSlot)]
    else []
  let cap : Cap :=
    { bay_index := index, station_start := left.station,
      station_end := right.station, easting := mid_e, northing := mid_n,
      bottom_elevation := ground_elev + (num_panels : ℚ) * PANEL_HEIGHT,
      bearing := bearing, width := bay_width,
      depth := PANEL_THICKNESS + 2 * CAP_OVERHANG, height := CAP_HEIGHT }
  { index := index, post_left := left, post_right := right,
    panels := panels, cap := some cap,
    footing_left := if footings.isEmpty then none else footings[left.index]?,
    footing_right := if footings.isEmpty then none else footings[right.index]?,
    joints := [], drainage_slots := drainage_slots }

/-- The joint record built at the right post of a bay in
`WallLayoutEngine._compute_joints`. -/
def jointFromPost (jt : JointType) (p : SteelPost) (i : ℕ) : Joint :=
  { joint_type := jt, station := p.station, easting := p.easting,
    northing := p.northing, ground_elevation := p.ground_elevation,
    top_elevation := p.top_elevation, bearing := p.bearing,
    gap_width := EXPANSION_JOINT_GAP, bay_index := i }

/-- Source `WallLayoutEngine._compute_joints`: walk consecutive post pairs
accumulating `dist_since_expansion` and `dist_since_contraction` by the bay
station length `right.station - left.station`; an expansion joint resets
both counters, a contraction joint resets only the contraction counter. -/
def jointsWalk : List SteelPost → ℕ → ℚ → ℚ → List Joint
  | left :: right :: rest, i, dist_exp, dist_con =>
    let bay_length := right.station - left.station
    let de := dist_exp + bay_length
    let dc := dist_con + bay_length
    if de ≥ EXPANSION_JOINT_SPACING then
      jointFromPost .EXPANSION right i :: jointsWalk (right :: rest) (i + 1) 0 0
    else if dc ≥ CONTRACTION_JOINT_SPACING then
      jointFromPost .CONTRACTION right i :: jointsWalk (right :: rest) (i + 1) de 0
    else jointsWalk (right :: rest) (i + 1) de dc
  | _, _, _, _ => []

/-- The `layout.bays[joint.bay_index].joints.append(joint)` mirroring of
`_compute_joints`: attach to a bay the joints carrying its bay index (the
walk emits at most one joint per bay index, so filtering reproduces the
appends). -/
def attachJoints (joints : List Joint) (b : Bay) : Bay :=
  { b with joints := joints.filter fun j => j.bay_index == b.index }

/-- Source `WallLayoutEngine._compute_precast`, Steps 1-5, producing the
flat posts, footings, bays (with their mirrored joints; the source appends
each joint to `layout.bays[joint.bay_index].joints`, which the filter
reproduces since the walk emits at most one joint per bay index) and
joints. -/
def WallLayoutEngine.precastParts (T : Trig) (eng : WallLayoutEngine) :
    Option (List SteelPost × List Footing × List Bay × List Joint) := do
  let post_stations := eng.compute_post_stations
  let posts ← post_stations.enum.mapM fun ista => eng.make_post T ista.1 ista.2
  let footings := posts.map eng.make_footing
  let bays₀ := (posts.zip posts.tail).enum.map fun ilr =>
    eng.make_bay T ilr.1 ilr.2.1 ilr.2.2 footings
  let joints := jointsWalk posts 0 0 0
  let bays := bays₀.map (attachJoints joints)
  pure (posts, footings, bays, joints)

/-- The per-segment body of the `for i in range(num_segments)` loop of
`WallLayoutEngine._compute_mse`. -/
def WallLayoutEngine.mseSegmentAt (T : Trig) (eng : WallLayoutEngine)
    (i : ℕ) (sta_start sta_end : ℚ) : Option MSESegment := do
  let pt_start ← eng.solver.solve T sta_start eng.offset
  let pt_end ← eng.solver.solve T sta_end eng.offset
  let ground_start ← eng.sampler.sample_at_station T eng.solver sta_start
    eng.offset
  let ground_end ← eng.sampler.sample_at_station T eng.solver sta_end
    eng.offset
  let base_elev := min ground_start ground_end
  let mse_height : ℚ := 3.048
  pure { index := i, station_start := sta_start, station_end := sta_end,
         easting_start := pt_start.easting,
         northing_start := pt_start.northing,
         easting_end := pt_end.easting, northing_end := pt_end.northing,
         base_elevation := base_elev,
         top_elevation := base_elev + mse_height + eng.wall_height,
         bearing := pt_start.bearing, wall_height := mse_height }

/-- Source `WallLayoutEngine._compute_mse`, MSE segment construction. -/
def WallLayoutEngine.mseSegments (T : Trig) (eng : WallLayoutEngine) :
    Option (List MSESegment) :=
  let segment_length := EXPANSION_JOINT_SPACING
  let total_length := eng.end_station - eng.start_station
  let num_segments := (max 1 ⌈total_length / segment_length⌉).toNat
  let actual_segment_length := total_length / (num_segments : ℚ)
  (List.range num_segments).mapM fun (i : ℕ) =>
    eng.mseSegmentAt T i
      (eng.start_station + (i : ℚ) * actual_segment_length)
      (eng.start_station + ((i : ℚ) + 1) * actual_segment_length)

/-- Source `WallLayoutEngine.compute`: dispatch on wall type, then flatten
panels, caps and drainage slots out of the bays.  `none` models a
propagated alignment `ValueError`. -/
def WallLayoutEngine.compute (T : Trig) (eng : WallLayoutEngine) :
    Option WallLayout :=
  let base : WallLayout :=
    { wall_type := eng.wall_type, start_station := eng.start_station,
      end_station := eng.end_station, wall_height := eng.wall_height,
      foundation_type := eng.foundation_type, posts := [], panels := [],
      footings := [], caps := [], joints := [], drainage_slots := [],
      bays := [], mse_segments := [] }
  match eng.wall_type with
  | .PRECAST => do
    let parts ← eng.precastParts T
    let (posts, footings, bays, joints) := parts
    pure { base with
           posts := posts, footings := footings, bays := bays,
           joints := joints, panels := bays.flatMap (·.panels),
           caps := bays.filterMap (·.cap),
           drainage_slots := bays.flatMap (·.drainage_slots) }
  | .MSE_COMPOSITE => do
    let msegs ← eng.mseSegments T
    let parts ← eng.precastParts T
    let (posts, footings, bays, joints) := parts
    pure { base with
           mse_segments := msegs, posts := posts,
           footings := footings, bays := bays, joints := joints,
           panels := bays.flatMap (·.panels),
           caps := bays.filterMap (·.cap),
           drainage_slots := bays.flatMap (·.drainage_slots) }

/-! ### Spec-side models and data-model wellformedness -/

/-- Modelled from the spec's words for claim C2 (spec Step 5): the joint
walk in which each bay contributes its CHORD length — the 2-D distance
between its two posts — to both counters, instead of the station length the
source uses. -/
def jointsWalkChordSpec (T : Trig) : List SteelPost → ℕ → ℚ → ℚ → List Joint
  | left :: right :: rest, i, dist_exp, dist_con =>
    let bay_length := T.sqrt ((right.easting - left.easting) ^ 2
      + (right.northing - left.northing) ^ 2)
    let de := dist_exp + bay_length
    let dc := dist_con + bay_length
    if de ≥ EXPANSION_JOINT_SPACING then
      jointFromPost .EXPANSION right i ::
        jointsWalkChordSpec T (right :: rest) (i + 1) 0 0
    else if dc ≥ CONTRACTION_JOINT_SPACING then
      jointFromPost .CONTRACTION right i ::
        jointsWalkChordSpec T (right :: rest) (i + 1) de 0
    else jointsWalkChordSpec T (right :: rest) (i + 1) de dc
  | _, _, _, _ => []

/-- Data-model wellformedness of an alignment (spec section 3): at least one
segment, every segment longer than the bracketing tolerance 1e-6, and exact
station contiguity between consecutive segments. -/
def AlignmentWF (a : HorizontalAlignment) : Prop :=
  a.segments ≠ [] ∧
  (∀ seg ∈ a.segments, seg.start_station + tol6 < seg.end_station) ∧
  List.Chain' (fun x y => x.end_station = y.start_station) a.segments

/-! ### Concrete fixtures for witnesses and counterexamples -/

/-- A 10 m due-north tangent (bearing tag 0: `sin 0 = 0`, `cos 0 = 1`). -/
def lineA : LineSegment :=
  { start_station := 0, end_station := 10, start_easting := 0,
    start_northing := 0, end_easting := 0, end_northing := 10, bearing := 0 }

/-- Single-tangent alignment over stations 0..10. -/
def alignA : HorizontalAlignment := { segments := [.line lineA] }

/-- Station solver over `alignA` with no profile. -/
def solverA : StationSolver := { alignment := alignA, profile := none }

/-- A 3 m due-north tangent (bearing tag 0). -/
def lineB : LineSegment :=
  { start_station := 0, end_station := 3, start_easting := 0,
    start_northing := 0, end_easting := 0, end_northing := 3, bearing := 0 }

/-- Single-tangent alignment over stations 0..3. -/
def alignB : HorizontalAlignment := { segments := [.line lineB] }

/-- Default precast engine over `alignB` (caisson foundations, default wall
height and post spacing, full alignment range). -/
def engineW : WallLayoutEngine :=
  mkWallLayoutEngine alignB none none .PRECAST DEFAULT_WALL_HEIGHT .CAISSON
    POST_SPACING_MAX none none 0

/-- Precast engine over `alignB` configured with CONTINUOUS footings. -/
def engineCont : WallLayoutEngine :=
  mkWallLayoutEngine alignB none none .PRECAST DEFAULT_WALL_HEIGHT
    .CONTINUOUS_FOOTING POST_SPACING_MAX none none 0

/-- Precast engine over `alignB` with an empty configured station range
(`start_station = end_station = 2`). -/
def engineDeg : WallLayoutEngine :=
  mkWallLayoutEngine alignB none none .PRECAST DEFAULT_WALL_HEIGHT .CAISSON
    POST_SPACING_MAX (some 2) (some 2) 0

/-- Eastbound 8 m tangent of the hairpin alignment (bearing tag 1, standing
for pi/2: `sin = 1`, `cos = 0`). -/
def segEast : LineSegment :=
  { start_station := 0, end_station := 8, start_easting := 0,
    start_northing := 0, end_easting := 8, end_northing := 0, bearing := 1 }

/-- Westbound return tangent of the hairpin (bearing tag 2, standing for
3*pi/2: `sin = -1`, `cos = 0`). -/
def segWest : LineSegment :=
  { start_station := 8, end_station := 16, start_easting := 8,
    start_northing := 0, end_easting := 0, end_northing := 0, bearing := 2 }

/-- Hairpin alignment: 8 m east then 8 m back west; stations contiguous and
endpoints C0-continuous, so it satisfies the data-model invariants, and its
ends coincide geometrically. -/
def hairpinAlign : HorizontalAlignment :=
  { segments := [.line segEast, .line segWest] }

/-- Oracle giving the real trigonometric values at the bearing tags of the
hairpin fixture (`sin(pi/2) = 1`, `sin(3*pi/2) = -1`, both cosines 0) and
the exact square root at the perfect square 0. -/
def hairpinTrig : Trig where
  sin := fun b => if b = 1 then 1 else if b = 2 then -1 else 0
  cos := fun _ => 0
  atan2 := fun _ _ => 0
  pi := 0
  sqrt := fun q => if q = 0 then 0 else 1

/-- Precast engine over the hairpin with one 16 m bay
(`post_spacing = 16`). -/
def engineHairpin : WallLayoutEngine :=
  mkWallLayoutEngine hairpinAlign none none .PRECAST DEFAULT_WALL_HEIGHT
    .CAISSON 16 none none 0

/-- The first post the hairpin engine computes (station 0, at the origin,
on the eastbound tangent). -/
def postH0 : SteelPost :=
  { index := 0, station := 0, easting := 0, northing := 0,
    ground_elevation := 0, top_elevation := 4.572, bearing := 1,
    height := 4.572 }

/-- The second post the hairpin engine computes (station 16, back at the
origin after the westbound return). -/
def postH1 : SteelPost :=
  { index := 1, station := 16, easting := 0, northing := 0,
    ground_elevation := 0, top_elevation := 4.572, bearing := 2,
    height := 4.572 }

/-! ## Theorems -/

/-- Claim C10: for every configuration in which the caller passes
`start_station = 0.0` or `end_station = 0.0` explicitly, the engine behaves
exactly as if that argument were omitted — the Python `or`-defaulting in the
constructor treats the float `0.0` as absent, so the corresponding alignment
bound is used instead.  (The engine's behavior is a function of the
constructed `WallLayoutEngine` value, so equality of the constructed engines
is behavioral equality.) -/
theorem c10_zero_station_treated_as_omitted (alignment : HorizontalAlignment)
    (profile : Option VerticalProfile) (surface : Option TerrainSurface)
    (wall_type : WallType) (wall_height : ℚ)
    (foundation_type : FoundationType) (post_spacing : ℚ)
    (other : Option ℚ) (offset : ℚ) :
    mkWallLayoutEngine alignment profile surface wall_type wall_height
        foundation_type post_spacing (some 0) other offset
      = mkWallLayoutEngine alignment profile surface wall_type wall_height
        foundation_type post_spacing none other offset ∧
    mkWallLayoutEngine alignment profile surface wall_type wall_height
        foundation_type post_spacing other (some 0) offset
      = mkWallLayoutEngine alignment profile surface wall_type wall_height
        foundation_type post_spacing other none offset := by
  constructor <;> simp [mkWallLayoutEngine, pyOrQ]

/-- Claim C3 counterexample: on the profile with PVIs (0, 100),
(50, 105, curve 20), (100, 100) the code returns 104 at station 40 (the
BVC of the curve, reached with incoming grade 0.1), not the 100 the claim
states. -/
theorem c3_counterexample : profileC3.elevation_at_station 40 ≠ 100 := by
  norm_num [VerticalProfile.elevation_at_station, curveHit, tangentHit,
    PVI.has_curve, PVI.bvc_station, PVI.evc_station, grade_between,
    parabolic_curve_elevation, profileC3, List.find?, List.enum,
    List.enumFrom]

/-- Claim C3 amended: on the profile with PVIs (0, 100), (50, 105, curve
20), (100, 100) the code returns elevation 104 at station 40, 104.5 at
station 50 (vertex 105 lowered by (g_out - g_in)L/8 = 0.5), and 104 at
station 60. -/
theorem c3_profile_elevations :
    profileC3.elevation_at_station 40 = 104 ∧
    profileC3.elevation_at_station 50 = 209 / 2 ∧
    profileC3.elevation_at_station 60 = 104 := by
  refine ⟨?_, ?_, ?_⟩ <;>
    norm_num [VerticalProfile.elevation_at_station, curveHit, tangentHit,
      PVI.has_curve, PVI.bvc_station, PVI.evc_station, grade_between,
      parabolic_curve_elevation, profileC3, List.find?, List.enum,
      List.enumFrom]

theorem elevationLoop_eq_findSome (S : TerrainSurface) (e n : ℚ) :
    ∀ ts, elevationLoop S e n ts = ts.findSome? (triangleElevationSpec S e n)
  | [] => rfl
  | t :: ts => by
    rw [List.findSome?_cons]
    show (match triangleElevationSpec S e n t with
      | some elev => some elev
      | none => elevationLoop S e n ts) = _
    cases triangleElevationSpec S e n t with
    | none => simpa using elevationLoop_eq_findSome S e n ts
    | some v => rfl

theorem findSome_spec_of_vertices_nil (S : TerrainSurface) (e n : ℚ)
    (hv : S.vertices = []) :
    ∀ ts : List (ℕ × ℕ × ℕ),
      List.findSome? (triangleElevationSpec S e n) ts = none := by
  intro ts
  induction ts with
  | nil => rfl
  | cons t ts ih =>
    rw [List.findSome?_cons]
    have ht : triangleElevationSpec S e n t = none := by
      norm_num [triangleElevationSpec, TerrainSurface.vertexD, hv, List.getD]
    rw [ht]
    exact ih

/-- Claim C7: for every TIN surface and query point, `elevation_at` is the
linear first-hit scan described by the spec — each triangle evaluated by the
barycentric rule (skip when the denominator is below 1e-12 in absolute
value, accept when all three coordinates are at least -1e-6), `none` when no
triangle contains the point. -/
theorem c7_elevation_at_is_first_hit_scan (S : TerrainSurface)
    (easting northing : ℚ) :
    S.elevation_at easting northing = elevationAtSpec S easting northing := by
  unfold TerrainSurface.elevation_at elevationAtSpec
  by_cases ht : S.triangles = []
  · simp [ht]
  · by_cases hv : S.vertices = []
    · simp [ht, hv, findSome_spec_of_vertices_nil S _ _ hv]
    · simp [ht, hv, elevationLoop_eq_findSome]

theorem tol6_pos : (0 : ℚ) < tol6 := by norm_num [tol6]

theorem wf_start_le (x : AlignmentSegment) (l : List AlignmentSegment)
    (hch : List.Chain' (fun a b => a.end_station = b.start_station) (x :: l))
    (hlen : ∀ seg ∈ x :: l, seg.start_station + tol6 < seg.end_station) :
    ∀ seg ∈ x :: l, x.start_station ≤ seg.start_station := by
  induction l generalizing x with
  | nil =>
    intro seg hm
    simp only [List.mem_singleton] at hm
    subst hm; exact le_refl _
  | cons y l ih =>
    intro seg hm
    have hxy : x.end_station = y.start_station := (List.chain'_cons.mp hch).1
    have htail := (List.chain'_cons.mp hch).2
    have hx : x.start_station + tol6 < x.end_station := hlen x (by simp)
    have hxs : x.start_station ≤ y.start_station := by
      have := tol6_pos; linarith [hxy.symm.le]
    rcases List.mem_cons.mp hm with rfl | hm'
    · exact le_refl _
    · have := ih y htail (fun s hs => hlen s (List.mem_cons_of_mem _ hs)) seg hm'
      linarith

theorem wf_end_le (x : AlignmentSegment) (l : List AlignmentSegment)
    (last : AlignmentSegment)
    (hch : List.Chain' (fun a b => a.end_station = b.start_station) (x :: l))
    (hlen : ∀ seg ∈ x :: l, seg.start_station + tol6 < seg.end_station)
    (hlast : (x :: l).getLast? = some last) :
    ∀ seg ∈ x :: l, seg.end_station ≤ last.end_station := by
  induction l generalizing x with
  | nil =>
    intro seg hm
    simp only [List.mem_singleton] at hm
    simp only [List.getLast?_singleton, Option.some.injEq] at hlast
    subst hm; subst hlast; exact le_refl _
  | cons y l ih =>
    intro seg hm
    have hxy : x.end_station = y.start_station := (List.chain'_cons.mp hch).1
    have htail := (List.chain'_cons.mp hch).2
    have hy : y.start_station + tol6 < y.end_station := hlen y (by simp)
    have hlast' : (y :: l).getLast? = some last := by
      rwa [List.getLast?_cons_cons] at hlast
    have hyle : y.end_station ≤ last.end_station :=
      ih y htail (fun s hs => hlen s (List.mem_cons_of_mem _ hs)) hlast' y
        (by simp)
    rcases List.mem_cons.mp hm with rfl | hm'
    · have := tol6_pos; linarith [hxy.le]
    · exact ih y htail (fun s hs => hlen s (List.mem_cons_of_mem _ hs))
        hlast' seg hm'

theorem wf_exists_bracket (s : ℚ) (x : AlignmentSegment)
    (l : List AlignmentSegment) (last : AlignmentSegment)
    (hch : List.Chain' (fun a b => a.end_station = b.start_station) (x :: l))
    (hlast : (x :: l).getLast? = some last)
    (hlo : x.start_station ≤ s) (hhi : s ≤ last.end_station) :
    ∃ seg ∈ x :: l, segBrackets s seg = true := by
  induction l generalizing x with
  | nil =>
    simp only [List.getLast?_singleton, Option.some.injEq] at hlast
    subst hlast
    refine ⟨x, by simp, ?_⟩
    have := tol6_pos
    simp only [segBrackets, Bool.and_eq_true, decide_eq_true_eq]
    exact ⟨hlo, by linarith⟩
  | cons y l ih =>
    by_cases hxe : s ≤ x.end_station + tol6
    · exact ⟨x, by simp, by
        simp only [segBrackets, Bool.and_eq_true, decide_eq_true_eq]
        exact ⟨hlo, hxe⟩⟩
    · have hxy : x.end_station = y.start_station := (List.chain'_cons.mp hch).1
      have htail := (List.chain'_cons.mp hch).2
      have hlast' : (y :: l).getLast? = some last := by
        rwa [List.getLast?_cons_cons] at hlast
      have hylo : y.start_station ≤ s := by
        have := tol6_pos
        push_neg at hxe
        linarith [hxy.symm.le]
      obtain ⟨seg, hmem, hseg⟩ := ih y htail hlast' hylo
      exact ⟨seg, List.mem_cons_of_mem _ hmem, hseg⟩

theorem wf_find_below (s : ℚ) (x : AlignmentSegment)
    (l : List AlignmentSegment)
    (hch : List.Chain' (fun a b => a.end_station = b.start_station) (x :: l))
    (hlen : ∀ seg ∈ x :: l, seg.start_station + tol6 < seg.end_station)
    (hs : s < x.start_station) :
    (x :: l).find? (segBrackets s) = none := by
  rw [List.find?_eq_none]
  intro seg hm
  have := wf_start_le x l hch hlen seg hm
  simp only [segBrackets, Bool.and_eq_true, decide_eq_true_eq, not_and]
  intro hle
  linarith

theorem wf_find_none_above (s : ℚ) (x : AlignmentSegment)
    (l : List AlignmentSegment) (last : AlignmentSegment)
    (hch : List.Chain' (fun a b => a.end_station = b.start_station) (x :: l))
    (hlen : ∀ seg ∈ x :: l, seg.start_station + tol6 < seg.end_station)
    (hlast : (x :: l).getLast? = some last)
    (hs : last.end_station + tol6 < s) :
    (x :: l).find? (segBrackets s) = none := by
  rw [List.find?_eq_none]
  intro seg hm
  have := wf_end_le x l last hch hlen hlast seg hm
  simp only [segBrackets, Bool.and_eq_true, decide_eq_true_eq, not_and]
  intro _
  linarith

theorem wf_find_above (s : ℚ) (x : AlignmentSegment)
    (l : List AlignmentSegment) (last : AlignmentSegment)
    (hch : List.Chain' (fun a b => a.end_station = b.start_station) (x :: l))
    (hlen : ∀ seg ∈ x :: l, seg.start_station + tol6 < seg.end_station)
    (hlast : (x :: l).getLast? = some last)
    (hlo : last.end_station < s) (hhi : s ≤ last.end_station + tol6) :
    (x :: l).find? (segBrackets s) = some last := by
  induction l generalizing x with
  | nil =>
    simp only [List.getLast?_singleton, Option.some.injEq] at hlast
    subst hlast
    have hx : x.start_station + tol6 < x.end_station := hlen x (by simp)
    have hpred : segBrackets s x = true := by
      simp only [segBrackets, Bool.and_eq_true, decide_eq_true_eq]
      have := tol6_pos
      constructor <;> linarith
    simp [List.find?_cons, hpred]
  | cons y l ih =>
    have hxy : x.end_station = y.start_station := (List.chain'_cons.mp hch).1
    have htail := (List.chain'_cons.mp hch).2
    have hlast' : (y :: l).getLast? = some last := by
      rwa [List.getLast?_cons_cons] at hlast
    have hy : y.start_station + tol6 < y.end_station := hlen y (by simp)
    have hyle : y.end_station ≤ last.end_station :=
      wf_end_le y l last htail
        (fun seg hm => hlen seg (List.mem_cons_of_mem _ hm)) hlast' y (by simp)
    have hpred : segBrackets s x = false := by
      simp only [segBrackets, Bool.and_eq_false_iff, decide_eq_false_iff_not]
      right
      push_neg
      linarith [hxy.le]
    rw [List.find?_cons_of_neg _ (by simp [hpred])]
    exact ih y htail (fun seg hm => hlen seg (List.mem_cons_of_mem _ hm)) hlast'

theorem point_at_of_find (T : Trig) (a : HorizontalAlignment) (s : ℚ)
    (seg : AlignmentSegment)
    (h : a.segments.find? (segBrackets s) = some seg) :
    a.point_at_station T s
      = some (seg.point_at_station T (min s seg.end_station)) := by
  unfold HorizontalAlignment.point_at_station
  rw [h]

theorem point_at_below (T : Trig) (a : HorizontalAlignment) (s : ℚ)
    (hwf : AlignmentWF a) (first : AlignmentSegment)
    (hhead : a.segments.head? = some first) (hs : s < first.start_station) :
    a.point_at_station T s
      = some (first.point_at_station T first.start_station) := by
  obtain ⟨hne, hlen, hch⟩ := hwf
  cases hsegs : a.segments with
  | nil => exact absurd hsegs hne
  | cons x l =>
    rw [hsegs] at hhead
    simp only [List.head?_cons, Option.some.injEq] at hhead
    subst hhead
    have hfind := wf_find_below s x l (hsegs ▸ hch) (hsegs ▸ hlen) hs
    have hstart : a.start_station = x.start_station := by
      simp [HorizontalAlignment.start_station, hsegs]
    cases hlast : (x :: l).getLast? with
    | none => simp [List.getLast?_eq_none_iff] at hlast
    | some last =>
      unfold HorizontalAlignment.point_at_station
      rw [hsegs, hfind, hlast]
      simp [hstart, hs]

theorem point_at_above (T : Trig) (a : HorizontalAlignment) (s : ℚ)
    (hwf : AlignmentWF a) (last : AlignmentSegment)
    (hlast : a.segments.getLast? = some last) (hs : last.end_station < s) :
    a.point_at_station T s
      = some (last.point_at_station T last.end_station) := by
  obtain ⟨hne, hlen, hch⟩ := hwf
  cases hsegs : a.segments with
  | nil => exact absurd hsegs hne
  | cons x l =>
    rw [hsegs] at hlast
    by_cases htol : s ≤ last.end_station + tol6
    · have hfind := wf_find_above s x l last (hsegs ▸ hch) (hsegs ▸ hlen)
        hlast hs htol
      rw [point_at_of_find T a s last (by rw [hsegs]; exact hfind)]
      rw [min_eq_right hs.le]
    · have hfind := wf_find_none_above s x l last (hsegs ▸ hch)
        (hsegs ▸ hlen) hlast (by push_neg at htol; linarith)
      have hstart : a.start_station = x.start_station := by
        simp [HorizontalAlignment.start_station, hsegs]
      have hend : a.end_station = last.end_station := by
        simp [HorizontalAlignment.end_station, hsegs, hlast]
      have hxend : x.end_station ≤ last.end_station :=
        wf_end_le x l last (hsegs ▸ hch) (hsegs ▸ hlen) hlast x (by simp)
      have hxlt : x.start_station + tol6 < x.end_station :=
        (hsegs ▸ hlen) x (by simp)
      have hnotlt : ¬ s < a.start_station := by
        rw [hstart]
        have := tol6_pos
        push_neg
        linarith
      have hgt : a.end_station < s := by rw [hend]; exact hs
      have h1 : ¬ s < x.start_station := by rw [hstart] at hnotlt; exact hnotlt
      unfold HorizontalAlignment.point_at_station
      rw [hsegs, hfind, hlast]
      simp [hnotlt, hgt, hstart, hend, h1, hs]

theorem point_at_isSome (T : Trig) (a : HorizontalAlignment)
    (hwf : AlignmentWF a) (s : ℚ) : (a.point_at_station T s).isSome := by
  obtain ⟨hne, hlen, hch⟩ := hwf
  cases hsegs : a.segments with
  | nil => exact absurd hsegs hne
  | cons x l =>
    cases hlast : (x :: l).getLast? with
    | none => simp [List.getLast?_eq_none_iff] at hlast
    | some last =>
      by_cases h1 : s < x.start_station
      · rw [point_at_below T a s ⟨hne, hlen, hch⟩ x
          (by rw [hsegs]; rfl) h1]
        rfl
      · by_cases h2 : s ≤ last.end_station
        · obtain ⟨seg, hmem, hseg⟩ := wf_exists_bracket s x l last
            (hsegs ▸ hch) hlast (not_lt.mp h1) h2
          obtain ⟨seg', hfind⟩ : ∃ seg',
              (x :: l).find? (segBrackets s) = some seg' :=
            Option.isSome_iff_exists.mp
              (List.find?_isSome.mpr ⟨seg, hmem, hseg⟩)
          rw [point_at_of_find T a s seg' (by rw [hsegs]; exact hfind)]
          rfl
        · rw [point_at_above T a s ⟨hne, hlen, hch⟩ last
            (by rw [hsegs]; exact hlast) (not_le.mp h2)]
          rfl

/-- Claim C8: on a wellformed alignment (at least one segment, contiguous
stations) `point_at_station` never raises; a station below the alignment
start returns the first segment's start point, a station above the alignment
end returns the last segment's end point, and a bracketed station is
dispatched to the first segment whose `[start_station, end_station + 1e-6]`
bracket contains it, clamped to that segment's `end_station`. -/
theorem c8_point_at_station_dispatch (T : Trig) (a : HorizontalAlignment)
    (hwf : AlignmentWF a) (s : ℚ) :
    (a.point_at_station T s).isSome ∧
    (∀ first, a.segments.head? = some first → s < first.start_station →
      a.point_at_station T s
        = some (first.point_at_station T first.start_station)) ∧
    (∀ last, a.segments.getLast? = some last → last.end_station < s →
      a.point_at_station T s
        = some (last.point_at_station T last.end_station)) ∧
    (∀ seg, a.segments.find? (segBrackets s) = some seg →
      a.point_at_station T s
        = some (seg.point_at_station T (min s seg.end_station))) :=
  ⟨point_at_isSome T a hwf s,
   fun first hhead hs => point_at_below T a s hwf first hhead hs,
   fun last hlast hs => point_at_above T a s hwf last hlast hs,
   fun seg hfind => point_at_of_find T a s seg hfind⟩

theorem solve_isSome (T : Trig) (solver : StationSolver)
    (hwf : AlignmentWF solver.alignment) (station offset : ℚ) :
    (solver.solve T station offset).isSome := by
  unfold StationSolver.solve
  have h := point_at_isSome T solver.alignment hwf station
  cases hp : solver.alignment.point_at_station T station with
  | none => rw [hp] at h; simp at h
  | some enb => rfl

theorem solve_station (T : Trig) (solver : StationSolver)
    (station offset : ℚ) (pt : StationPoint)
    (h : solver.solve T station offset = some pt) : pt.station = station := by
  unfold StationSolver.solve at h
  cases hp : solver.alignment.point_at_station T station with
  | none => rw [hp] at h; simp at h
  | some enb =>
    obtain ⟨e, nn, b⟩ := enb
    rw [hp] at h
    simp only [Option.map_some', Option.some.injEq] at h
    rw [← h]

theorem sample_isSome (T : Trig) (sampler : TerrainSampler)
    (solver : StationSolver) (hwf : AlignmentWF solver.alignment)
    (station offset : ℚ) :
    (sampler.sample_at_station T solver station offset).isSome := by
  unfold TerrainSampler.sample_at_station
  have h := solve_isSome T solver hwf station offset
  cases hs : solver.solve T station offset with
  | none => rw [hs] at h; simp at h
  | some pt =>
    simp only [hs]
    cases sampler.surface with
    | none => rfl
    | some surf =>
      cases he : surf.elevation_at pt.easting pt.northing <;> simp [he]

theorem make_post_isSome (T : Trig) (eng : WallLayoutEngine)
    (hwf : AlignmentWF eng.alignment) (i : ℕ) (station : ℚ) :
    (eng.make_post T i station).isSome := by
  unfold WallLayoutEngine.make_post
  have h1 := solve_isSome T eng.solver hwf station eng.offset
  cases hs : eng.solver.solve T station eng.offset with
  | none => rw [hs] at h1; simp at h1
  | some pt =>
    have h2 := sample_isSome T eng.sampler eng.solver hwf station eng.offset
    cases hg : eng.sampler.sample_at_station T eng.solver station eng.offset with
    | none => rw [hg] at h2; simp at h2
    | some g => simp [hs, hg]

theorem make_post_fields (T : Trig) (eng : WallLayoutEngine) (i : ℕ)
    (station : ℚ) (post : SteelPost)
    (h : eng.make_post T i station = some post) :
    post.index = i ∧ post.station = station ∧
    post.height = eng.wall_height ∧
    post.top_elevation = post.ground_elevation + eng.wall_height := by
  unfold WallLayoutEngine.make_post at h
  cases hs : eng.solver.solve T station eng.offset with
  | none => rw [hs] at h; simp at h
  | some pt =>
    cases hg : eng.sampler.sample_at_station T eng.solver station eng.offset with
    | none => rw [hs, hg] at h; simp at h
    | some g =>
      rw [hs, hg] at h
      have h2 := Option.some.inj h
      subst h2
      simp

theorem mapM_isSome {α β : Type} (f : α → Option β) :
    ∀ l : List α, (∀ x ∈ l, (f x).isSome) → (l.mapM f).isSome := by
  intro l
  induction l with
  | nil => intro _; rfl
  | cons a l ih =>
    intro h
    rw [List.mapM_cons]
    have ha := h a (by simp)
    cases hfa : f a with
    | none => rw [hfa] at ha; simp at ha
    | some b =>
      have hl := ih fun x hx => h x (by simp [hx])
      cases hml : l.mapM f with
      | none => rw [hml] at hl; simp at hl
      | some bs => simp [hfa, hml]

theorem mapM_some_length {α β : Type} (f : α → Option β) :
    ∀ (l : List α) (ys : List β), l.mapM f = some ys →
      ys.length = l.length := by
  intro l
  induction l with
  | nil =>
    intro ys h
    simp only [List.mapM_nil, Option.pure_def, Option.some.injEq] at h
    subst h; rfl
  | cons a l ih =>
    intro ys h
    rw [List.mapM_cons] at h
    cases hfa : f a with
    | none => rw [hfa] at h; simp at h
    | some b =>
      rw [hfa] at h
      cases hml : l.mapM f with
      | none => rw [hml] at h; simp at h
      | some bs =>
        rw [hml] at h
        simp only [Option.some_bind, Option.pure_def, Option.bind_eq_bind,
          Option.some.injEq] at h
        rw [← h]
        simp [ih bs hml]

theorem mapM_some_map {α β γ : Type} (f : α → Option β) (g : β → γ)
    (gs : α → γ) (hfg : ∀ x y, f x = some y → g y = gs x) :
    ∀ (l : List α) (ys : List β), l.mapM f = some ys →
      ys.map g = l.map gs := by
  intro l
  induction l with
  | nil =>
    intro ys h
    simp only [List.mapM_nil, Option.pure_def, Option.some.injEq] at h
    subst h; rfl
  | cons a l ih =>
    intro ys h
    rw [List.mapM_cons] at h
    cases hfa : f a with
    | none => rw [hfa] at h; simp at h
    | some b =>
      rw [hfa] at h
      cases hml : l.mapM f with
      | none => rw [hml] at h; simp at h
      | some bs =>
        rw [hml] at h
        simp only [Option.some_bind, Option.pure_def, Option.bind_eq_bind,
          Option.some.injEq] at h
        rw [← h]
        simp [ih bs hml, hfg a b hfa]

theorem precastParts_eq (T : Trig) (eng : WallLayoutEngine)
    (posts : List SteelPost) (footings : List Footing) (bays : List Bay)
    (joints : List Joint)
    (h : eng.precastParts T = some (posts, footings, bays, joints)) :
    eng.compute_post_stations.enum.mapM
        (fun ista => eng.make_post T ista.1 ista.2) = some posts ∧
    footings = posts.map eng.make_footing ∧
    bays = ((posts.zip posts.tail).enum.map fun ilr =>
        eng.make_bay T ilr.1 ilr.2.1 ilr.2.2
          (posts.map eng.make_footing)).map
        (attachJoints (jointsWalk posts 0 0 0)) ∧
    joints = jointsWalk posts 0 0 0 := by
  unfold WallLayoutEngine.precastParts at h
  simp only [] at h
  cases hm : eng.compute_post_stations.enum.mapM
      (fun ista => eng.make_post T ista.1 ista.2) with
  | none => rw [hm] at h; simp at h
  | some ps =>
    rw [hm] at h
    have h2 := Option.some.inj h
    simp only [Prod.mk.injEq] at h2
    obtain ⟨hp, hf, hb, hj⟩ := h2
    subst hp
    exact ⟨rfl, hf.symm, hb.symm, hj.symm⟩

set_option maxHeartbeats 1000000 in
theorem precastParts_isSome (T : Trig) (eng : WallLayoutEngine)
    (hwf : AlignmentWF eng.alignment) : (eng.precastParts T).isSome := by
  have hm : (eng.compute_post_stations.enum.mapM
      (fun ista => eng.make_post T ista.1 ista.2)).isSome :=
    mapM_isSome _ _ (fun ista _ => make_post_isSome T eng hwf ista.1 ista.2)
  obtain ⟨ps, hps⟩ := Option.isSome_iff_exists.mp hm
  unfold WallLayoutEngine.precastParts
  simp only []
  rw [hps]
  rfl

theorem mseSegmentAt_isSome (T : Trig) (eng : WallLayoutEngine)
    (hwf : AlignmentWF eng.alignment) (i : ℕ) (s1 s2 : ℚ) :
    (eng.mseSegmentAt T i s1 s2).isSome := by
  unfold WallLayoutEngine.mseSegmentAt
  obtain ⟨p1, h1⟩ := Option.isSome_iff_exists.mp
    (solve_isSome T eng.solver hwf s1 eng.offset)
  obtain ⟨p2, h2⟩ := Option.isSome_iff_exists.mp
    (solve_isSome T eng.solver hwf s2 eng.offset)
  obtain ⟨g1, h3⟩ := Option.isSome_iff_exists.mp
    (sample_isSome T eng.sampler eng.solver hwf s1 eng.offset)
  obtain ⟨g2, h4⟩ := Option.isSome_iff_exists.mp
    (sample_isSome T eng.sampler eng.solver hwf s2 eng.offset)
  simp [h1, h2, h3, h4]

set_option maxHeartbeats 1000000 in
theorem mseSegments_isSome (T : Trig) (eng : WallLayoutEngine)
    (hwf : AlignmentWF eng.alignment) : (eng.mseSegments T).isSome := by
  unfold WallLayoutEngine.mseSegments
  simp only []
  exact mapM_isSome _ _ (fun i _ => mseSegmentAt_isSome T eng hwf i _ _)

theorem compute_eq_parts (T : Trig) (eng : WallLayoutEngine)
    (layout : WallLayout) (hc : eng.compute T = some layout) :
    ∃ posts footings bays joints,
      eng.precastParts T = some (posts, footings, bays, joints) ∧
      layout.posts = posts ∧ layout.footings = footings ∧
      layout.bays = bays ∧ layout.joints = joints ∧
      layout.panels = bays.flatMap (·.panels) ∧
      layout.caps = bays.filterMap (·.cap) ∧
      layout.drainage_slots = bays.flatMap (·.drainage_slots) := by
  unfold WallLayoutEngine.compute at hc
  cases hw : eng.wall_type with
  | PRECAST =>
    rw [hw] at hc
    simp only [] at hc
    cases hp : eng.precastParts T with
    | none => rw [hp] at hc; simp at hc
    | some parts =>
      obtain ⟨posts, footings, bays, joints⟩ := parts
      rw [hp] at hc
      have h2 := Option.some.inj hc
      refine ⟨posts, footings, bays, joints, rfl, ?_⟩
      rw [← h2]
      simp
  | MSE_COMPOSITE =>
    rw [hw] at hc
    simp only [] at hc
    cases hms : eng.mseSegments T with
    | none => rw [hms] at hc; simp at hc
    | some msegs =>
      rw [hms] at hc
      cases hp : eng.precastParts T with
      | none => rw [hp] at hc; simp at hc
      | some parts =>
        obtain ⟨posts, footings, bays, joints⟩ := parts
        rw [hp] at hc
        have h2 := Option.some.inj hc
        refine ⟨posts, footings, bays, joints, rfl, ?_⟩
        rw [← h2]
        simp

theorem compute_mse_count (T : Trig) (eng : WallLayoutEngine)
    (layout : WallLayout) (hc : eng.compute T = some layout) :
    (eng.wall_type = .PRECAST → layout.mse_segments = []) ∧
    (eng.wall_type = .MSE_COMPOSITE →
      layout.mse_segments.length
        = (max 1 ⌈(eng.end_station - eng.start_station)
            / EXPANSION_JOINT_SPACING⌉).toNat) := by
  unfold WallLayoutEngine.compute at hc
  cases hw : eng.wall_type with
  | PRECAST =>
    rw [hw] at hc
    simp only [] at hc
    cases hp : eng.precastParts T with
    | none => rw [hp] at hc; simp at hc
    | some parts =>
      obtain ⟨posts, footings, bays, joints⟩ := parts
      rw [hp] at hc
      have h2 := Option.some.inj hc
      constructor
      · intro _; rw [← h2]
      · intro hcontra; simp at hcontra
  | MSE_COMPOSITE =>
    rw [hw] at hc
    simp only [] at hc
    cases hms : eng.mseSegments T with
    | none => rw [hms] at hc; simp at hc
    | some msegs =>
      rw [hms] at hc
      cases hp : eng.precastParts T with
      | none => rw [hp] at hc; simp at hc
      | some parts =>
        obtain ⟨posts, footings, bays, joints⟩ := parts
        rw [hp] at hc
        have h2 := Option.some.inj hc
        constructor
        · intro hcontra; simp at hcontra
        · intro _
          have hlen : layout.mse_segments = msegs := by rw [← h2]
          rw [hlen]
          have := mapM_some_length _ _ _ ((by
            unfold WallLayoutEngine.mseSegments at hms
            simp only [] at hms
            exact hms) :
            (List.range ((max 1 ⌈(eng.end_station - eng.start_station)
              / EXPANSION_JOINT_SPACING⌉).toNat)).mapM _ = some msegs)
          rw [this, List.length_range]

theorem compute_isSome (T : Trig) (eng : WallLayoutEngine)
    (hwf : AlignmentWF eng.alignment) : (eng.compute T).isSome := by
  unfold WallLayoutEngine.compute
  simp only []
  cases hw : eng.wall_type with
  | PRECAST =>
    obtain ⟨parts, hp⟩ := Option.isSome_iff_exists.mp
      (precastParts_isSome T eng hwf)
    obtain ⟨posts, footings, bays, joints⟩ := parts
    simp [hp]
  | MSE_COMPOSITE =>
    obtain ⟨msegs, hms⟩ := Option.isSome_iff_exists.mp
      (mseSegments_isSome T eng hwf)
    obtain ⟨parts, hp⟩ := Option.isSome_iff_exists.mp
      (precastParts_isSome T eng hwf)
    obtain ⟨posts, footings, bays, joints⟩ := parts
    simp [hms, hp]

theorem posts_map_station (T : Trig) (eng : WallLayoutEngine)
    (posts : List SteelPost)
    (h : eng.compute_post_stations.enum.mapM
      (fun ista => eng.make_post T ista.1 ista.2) = some posts) :
    posts.map (fun p => p.station) = eng.compute_post_stations := by
  have hfg : ∀ (ista : ℕ × ℚ) (post : SteelPost),
      eng.make_post T ista.1 ista.2 = some post →
      post.station = ista.2 :=
    fun ista post hp => (make_post_fields T eng ista.1 ista.2 post hp).2.1
  have hm : posts.map (fun p => p.station)
      = eng.compute_post_stations.enum.map (fun ista => ista.2) :=
    mapM_some_map _ _ _ hfg _ posts h
  rw [hm]
  simp

theorem spacing_bounds (L ps : ℚ) (hL : 0 < L) (hps : 0 < ps) :
    (1 : ℤ) ≤ ⌈L / ps⌉ ∧ 0 < L / ((⌈L / ps⌉ : ℤ) : ℚ) ∧
      L / ((⌈L / ps⌉ : ℤ) : ℚ) ≤ ps := by
  have hq : 0 < L / ps := div_pos hL hps
  have h1 : (1 : ℤ) ≤ ⌈L / ps⌉ := by
    have := Int.ceil_pos.mpr hq
    omega
  have hNpos : (0 : ℚ) < ((⌈L / ps⌉ : ℤ) : ℚ) := by exact_mod_cast h1
  refine ⟨h1, div_pos hL hNpos, ?_⟩
  rw [div_le_iff₀ hNpos]
  have h2 : L / ps ≤ ((⌈L / ps⌉ : ℤ) : ℚ) := Int.le_ceil _
  have h3 : L ≤ ((⌈L / ps⌉ : ℤ) : ℚ) * ps := (div_le_iff₀ hps).mp h2
  linarith

/-- Claim C5: for a precast configuration with a positive configured
spacing and `end_station > start_station`, letting `L` be the range length
and `N = max 1 ⌈L / post_spacing⌉`, the engine emits exactly `N + 1` posts
at stations `start + i * (L / N)`; the post stations are strictly
increasing with consecutive gaps at most `post_spacing + 1e-6`. -/
theorem c5_uniform_post_stations (T : Trig) (eng : WallLayoutEngine)
    (layout : WallLayout)
    (hps : 0 < eng.post_spacing)
    (hrange : eng.start_station < eng.end_station)
    (hc : eng.compute T = some layout) :
    layout.posts.length
      = (max 1 ⌈(eng.end_station - eng.start_station)
          / eng.post_spacing⌉).toNat + 1 ∧
    layout.posts.map (fun p => p.station)
      = (List.range ((max 1 ⌈(eng.end_station - eng.start_station)
            / eng.post_spacing⌉).toNat + 1)).map
          (fun i : ℕ => eng.start_station + (i : ℚ)
            * ((eng.end_station - eng.start_station)
              / ((max 1 ⌈(eng.end_station - eng.start_station)
                  / eng.post_spacing⌉ : ℤ) : ℚ))) ∧
    List.Chain' (fun p q : SteelPost => p.station < q.station) layout.posts ∧
    List.Chain' (fun p q : SteelPost =>
      q.station - p.station ≤ eng.post_spacing + tol6) layout.posts := by
  obtain ⟨posts, footings, bays, joints, hp, hpost, -, -, -, -, -, -⟩ :=
    compute_eq_parts T eng layout hc
  obtain ⟨hmapm, -, -, -⟩ := precastParts_eq T eng posts footings bays joints hp
  rw [hpost]
  have hstations := posts_map_station T eng posts hmapm
  have hst : eng.compute_post_stations
      = (List.range ((max 1 ⌈(eng.end_station - eng.start_station)
            / eng.post_spacing⌉).toNat + 1)).map
        (fun i : ℕ => eng.start_station + (i : ℚ)
          * ((eng.end_station - eng.start_station)
            / ((max 1 ⌈(eng.end_station - eng.start_station)
                / eng.post_spacing⌉ : ℤ) : ℚ))) := rfl
  set L := eng.end_station - eng.start_station with hLdef
  have hL : 0 < L := by rw [hLdef]; linarith
  obtain ⟨h1, hdpos, hdle⟩ := spacing_bounds L eng.post_spacing hL hps
  have hmax : max 1 ⌈L / eng.post_spacing⌉ = ⌈L / eng.post_spacing⌉ :=
    max_eq_right h1
  have hdpos' : 0 < L / ((max 1 ⌈L / eng.post_spacing⌉ : ℤ) : ℚ) := by
    rw [hmax]; exact hdpos
  have hdle' : L / ((max 1 ⌈L / eng.post_spacing⌉ : ℤ) : ℚ)
      ≤ eng.post_spacing := by rw [hmax]; exact hdle
  have hchq : ∀ (P : ℚ → ℚ → Prop),
      (∀ i : ℕ, P (eng.start_station + (i : ℚ)
          * (L / ((max 1 ⌈L / eng.post_spacing⌉ : ℤ) : ℚ)))
        (eng.start_station + ((i : ℚ) + 1)
          * (L / ((max 1 ⌈L / eng.post_spacing⌉ : ℤ) : ℚ)))) →
      List.Chain' P (posts.map (fun p => p.station)) := by
    intro P hstep
    rw [hstations, hst]
    refine (List.chain'_map _).mpr ?_
    refine (List.chain'_range_succ _ _).mpr ?_
    intro i _
    have := hstep i
    push_cast
    push_cast at this
    convert this using 3 <;> ring
  refine ⟨?_, ?_, ?_, ?_⟩
  · have hlen := congrArg List.length hstations
    simp only [List.length_map] at hlen
    rw [hlen, hst]
    simp
  · rw [hstations, hst]
  · refine (@List.chain'_map ℚ SteelPost (fun a b : ℚ => a < b)
      (fun p : SteelPost => p.station) posts).mp ?_
    refine hchq (fun a b : ℚ => a < b) ?_
    intro i
    nlinarith [hdpos']
  · refine (@List.chain'_map ℚ SteelPost
      (fun a b : ℚ => b - a ≤ eng.post_spacing + tol6)
      (fun p : SteelPost => p.station) posts).mp ?_
    refine hchq (fun a b : ℚ => b - a ≤ eng.post_spacing + tol6) ?_
    intro i
    have h6 := tol6_pos
    nlinarith [hdle', hdpos']

theorem EXPANSION_JOINT_SPACING_pos : (0 : ℚ) < EXPANSION_JOINT_SPACING := by
  norm_num [EXPANSION_JOINT_SPACING]

theorem CONTRACTION_JOINT_SPACING_pos : (0 : ℚ) < CONTRACTION_JOINT_SPACING := by
  norm_num [CONTRACTION_JOINT_SPACING]

theorem compute_post_stations_degenerate (eng : WallLayoutEngine)
    (hps : 0 < eng.post_spacing)
    (hdeg : eng.end_station ≤ eng.start_station) :
    eng.compute_post_stations = [eng.start_station, eng.end_station] := by
  have hL : eng.end_station - eng.start_station ≤ 0 := by linarith
  have hq : (eng.end_station - eng.start_station) / eng.post_spacing ≤ 0 := by
    apply div_nonpos_of_nonpos_of_nonneg hL hps.le
  have hc : ⌈(eng.end_station - eng.start_station) / eng.post_spacing⌉ ≤ 0 :=
    Int.ceil_le.mpr (by exact_mod_cast hq)
  have hmax : max 1 ⌈(eng.end_station - eng.start_station)
      / eng.post_spacing⌉ = 1 := max_eq_left (by omega)
  unfold WallLayoutEngine.compute_post_stations
  simp only []
  rw [hmax]
  norm_num [List.range_succ]

theorem jointsWalk_singleton (p : SteelPost) (i : ℕ) (d1 d2 : ℚ) :
    jointsWalk [p] i d1 d2 = [] := rfl

theorem jointsWalk_two_nonpos (p q : SteelPost) (i : ℕ)
    (h : q.station - p.station ≤ 0) : jointsWalk [p, q] i 0 0 = [] := by
  have hE := EXPANSION_JOINT_SPACING_pos
  have hC := CONTRACTION_JOINT_SPACING_pos
  unfold jointsWalk
  simp only []
  rw [if_neg (by push_neg; linarith), if_neg (by push_neg; linarith)]
  exact jointsWalk_singleton q (i + 1) _ _

theorem attachJoints_parts (joints : List Joint) (b : Bay) :
    (attachJoints joints b).panels = b.panels ∧
    (attachJoints joints b).cap = b.cap ∧
    (attachJoints joints b).post_left = b.post_left ∧
    (attachJoints joints b).post_right = b.post_right ∧
    (attachJoints joints b).index = b.index ∧
    (attachJoints joints b).drainage_slots = b.drainage_slots :=
  ⟨rfl, rfl, rfl, rfl, rfl, rfl⟩

theorem make_bay_parts (T : Trig) (eng : WallLayoutEngine) (index : ℕ)
    (left right : SteelPost) (footings : List Footing) :
    (eng.make_bay T index left right footings).post_left = left ∧
    (eng.make_bay T index left right footings).post_right = right ∧
    (eng.make_bay T index left right footings).panels.length
      = (max 1 ⌈(max left.top_elevation right.top_elevation
          - min left.ground_elevation right.ground_elevation - CAP_HEIGHT)
          / PANEL_HEIGHT⌉).toNat ∧
    (∀ k (hk : k < (eng.make_bay T index left right footings).panels.length),
      ((eng.make_bay T index left right footings).panels.get
          ⟨k, hk⟩).bottom_elevation
        = min left.ground_elevation right.ground_elevation
          + (k : ℚ) * PANEL_HEIGHT ∧
      ((eng.make_bay T index left right footings).panels.get
          ⟨k, hk⟩).height = PANEL_HEIGHT) ∧
    (∃ c, (eng.make_bay T index left right footings).cap = some c ∧
      c.bottom_elevation
        = min left.ground_elevation right.ground_elevation
          + (((max 1 ⌈(max left.top_elevation right.top_elevation
              - min left.ground_elevation right.ground_elevation - CAP_HEIGHT)
              / PANEL_HEIGHT⌉).toNat : ℕ) : ℚ) * PANEL_HEIGHT) ∧
    1 ≤ (eng.make_bay T index left right footings).panels.length := by
  refine ⟨rfl, rfl, ?_, ?_, ?_, ?_⟩
  · simp [WallLayoutEngine.make_bay]
  · intro k hk
    constructor
    · simp [WallLayoutEngine.make_bay]
    · simp [WallLayoutEngine.make_bay]
  · refine ⟨_, rfl, ?_⟩
    simp [WallLayoutEngine.make_bay]
  · simp only [WallLayoutEngine.make_bay, List.length_map, List.length_range]
    omega

theorem list_len_two {α : Type} (l : List α) (h : l.length = 2) :
    ∃ a b, l = [a, b] := by
  match l, h with
  | [a, b], _ => exact ⟨a, b, rfl⟩

/-- Claim C1 amended: for every wellformed configuration whose resolved
station range is empty (`start_station = end_station`) or reversed,
`compute` never raises, but it does NOT return an empty layout: it still
emits a degenerate layout with two posts at the resolved start and end
stations, two footings, one bay with at least one panel and a cap, and no
joints (and, for an MSE-composite wall, one MSE segment). -/
theorem c1_degenerate_range_layout (T : Trig) (eng : WallLayoutEngine)
    (hwf : AlignmentWF eng.alignment) (hps : 0 < eng.post_spacing)
    (hdeg : eng.end_station ≤ eng.start_station) :
    ∃ layout, eng.compute T = some layout ∧
      layout.posts.map (fun p => p.station)
        = [eng.start_station, eng.end_station] ∧
      layout.posts.length = 2 ∧ layout.footings.length = 2 ∧
      layout.bays.length = 1 ∧ layout.caps.length = 1 ∧
      layout.joints = [] ∧ 1 ≤ layout.panels.length ∧
      (eng.wall_type = .MSE_COMPOSITE → layout.mse_segments.length = 1) := by
  obtain ⟨layout, hc⟩ := Option.isSome_iff_exists.mp (compute_isSome T eng hwf)
  obtain ⟨posts, footings, bays, joints, hp, hpost, hfoot, hbays, hjoints,
    hpanels, hcaps, hdrain⟩ := compute_eq_parts T eng layout hc
  obtain ⟨hmapm, hfeq, hbeq, hjeq⟩ :=
    precastParts_eq T eng posts footings bays joints hp
  have hdegs := compute_post_stations_degenerate eng hps hdeg
  have hstations := posts_map_station T eng posts hmapm
  rw [hdegs] at hstations
  have hlen2 : posts.length = 2 := by
    have h := congrArg List.length hstations
    simpa using h
  obtain ⟨p1, p2, hP⟩ := list_len_two posts hlen2
  rw [hP] at hstations
  simp only [List.map_cons, List.map_nil, List.cons.injEq, and_true] at hstations
  obtain ⟨hsta1, hsta2⟩ := hstations
  have hjnil : joints = [] := by
    rw [hjeq, hP]
    exact jointsWalk_two_nonpos p1 p2 0 (by rw [hsta1, hsta2]; linarith)
  have hbshape : bays = [attachJoints (jointsWalk [p1, p2] 0 0 0)
      (eng.make_bay T 0 p1 p2 [eng.make_footing p1, eng.make_footing p2])] := by
    rw [hbeq, hP]
    simp [List.enum, List.enumFrom]
  obtain ⟨-, -, -, -, ⟨c, hcap, -⟩, hpan1⟩ :=
    make_bay_parts T eng 0 p1 p2 [eng.make_footing p1, eng.make_footing p2]
  refine ⟨layout, hc, ?_, ?_, ?_, ?_, ?_, ?_, ?_, ?_⟩
  · rw [hpost, hP]
    simp [hsta1, hsta2]
  · rw [hpost, hlen2]
  · rw [hfoot, hfeq, List.length_map, hlen2]
  · rw [hbays, hbshape]
    rfl
  · rw [hcaps, hbshape]
    simp [attachJoints, hcap]
  · rw [hjoints, hjnil]
  · rw [hpanels, hbshape]
    simpa [attachJoints] using hpan1
  · intro hmse
    have hcount := (compute_mse_count T eng layout hc).2 hmse
    have hL : eng.end_station - eng.start_station ≤ 0 := by linarith
    have hq : (eng.end_station - eng.start_station)
        / EXPANSION_JOINT_SPACING ≤ 0 :=
      div_nonpos_of_nonpos_of_nonneg hL EXPANSION_JOINT_SPACING_pos.le
    have hceil : ⌈(eng.end_station - eng.start_station)
        / EXPANSION_JOINT_SPACING⌉ ≤ 0 := Int.ceil_le.mpr (by exact_mod_cast hq)
    rw [hcount, max_eq_left (by omega)]
    rfl

theorem alignA_wf : AlignmentWF alignA := by
  refine ⟨by simp [alignA], ?_, by simp [alignA]⟩
  intro seg hm
  simp only [alignA, List.mem_singleton] at hm
  subst hm
  norm_num [lineA, AlignmentSegment.start_station,
    AlignmentSegment.end_station, tol6]

theorem alignB_wf : AlignmentWF alignB := by
  refine ⟨by simp [alignB], ?_, by simp [alignB]⟩
  intro seg hm
  simp only [alignB, List.mem_singleton] at hm
  subst hm
  norm_num [lineB, AlignmentSegment.start_station,
    AlignmentSegment.end_station, tol6]

theorem hairpin_wf : AlignmentWF hairpinAlign := by
  refine ⟨by simp [hairpinAlign], ?_, ?_⟩
  · intro seg hm
    simp only [hairpinAlign, List.mem_cons, List.mem_singleton] at hm
    rcases hm with rfl | rfl | h
    · norm_num [segEast, AlignmentSegment.start_station,
        AlignmentSegment.end_station, tol6]
    · norm_num [segWest, AlignmentSegment.start_station,
        AlignmentSegment.end_station, tol6]
    · cases h
  · simp [hairpinAlign, segEast, segWest, AlignmentSegment.start_station,
      AlignmentSegment.end_station]

theorem engineDeg_spacing : 0 < engineDeg.post_spacing := by
  norm_num [engineDeg, mkWallLayoutEngine, POST_SPACING_MAX]

theorem engineDeg_range : engineDeg.end_station ≤ engineDeg.start_station := by
  norm_num [engineDeg, mkWallLayoutEngine, pyOrQ]

/-- Claim C1 counterexample: on a wellformed 3 m tangent alignment with the
configured station range empty (`start_station = end_station = 2`), the
engine does not return an empty layout — the computed layout contains two
posts. -/
theorem c1_counterexample :
    ∃ layout, engineDeg.compute trivialTrig = some layout ∧
      layout.posts.length = 2 ∧ (2 : ℕ) ≠ 0 := by
  have hwf : AlignmentWF engineDeg.alignment := alignB_wf
  obtain ⟨layout, hc⟩ := Option.isSome_iff_exists.mp
    (compute_isSome trivialTrig engineDeg hwf)
  obtain ⟨posts, footings, bays, joints, hp, hpost, -, -, -, -, -, -⟩ :=
    compute_eq_parts trivialTrig engineDeg layout hc
  obtain ⟨hmapm, -, -, -⟩ :=
    precastParts_eq trivialTrig engineDeg posts footings bays joints hp
  have hdegs := compute_post_stations_degenerate engineDeg engineDeg_spacing
    engineDeg_range
  have hstations := posts_map_station trivialTrig engineDeg posts hmapm
  rw [hdegs] at hstations
  have hlen2 : posts.length = 2 := by
    simpa using congrArg List.length hstations
  exact ⟨layout, hc, by rw [hpost, hlen2], by norm_num⟩

/-- Witness for claim C1's amended theorem at the concrete degenerate
engine `engineDeg`. -/
theorem c1_degenerate_range_layout_witness :
    ∃ layout, engineDeg.compute trivialTrig = some layout ∧
      layout.posts.map (fun p => p.station)
        = [engineDeg.start_station, engineDeg.end_station] ∧
      layout.posts.length = 2 ∧ layout.footings.length = 2 ∧
      layout.bays.length = 1 ∧ layout.caps.length = 1 ∧
      layout.joints = [] ∧ 1 ≤ layout.panels.length ∧
      (engineDeg.wall_type = .MSE_COMPOSITE →
        layout.mse_segments.length = 1) :=
  c1_degenerate_range_layout trivialTrig engineDeg alignB_wf
    engineDeg_spacing engineDeg_range

theorem engineW_spacing : 0 < engineW.post_spacing := by
  norm_num [engineW, mkWallLayoutEngine, POST_SPACING_MAX]

theorem engineW_range : engineW.start_station < engineW.end_station := by
  norm_num [engineW, mkWallLayoutEngine, pyOrQ, alignB, lineB,
    HorizontalAlignment.start_station, HorizontalAlignment.end_station,
    AlignmentSegment.start_station, AlignmentSegment.end_station,
    List.getLast?_singleton]

/-- Witness for claim C5's theorem at the concrete engine `engineW`
(3 m tangent, default spacing 3.048). -/
theorem c5_uniform_post_stations_witness :
    ∃ layout, engineW.compute trivialTrig = some layout ∧
      (layout.posts.length
        = (max 1 ⌈(engineW.end_station - engineW.start_station)
            / engineW.post_spacing⌉).toNat + 1 ∧
      layout.posts.map (fun p => p.station)
        = (List.range ((max 1 ⌈(engineW.end_station - engineW.start_station)
              / engineW.post_spacing⌉).toNat + 1)).map
            (fun i : ℕ => engineW.start_station + (i : ℚ)
              * ((engineW.end_station - engineW.start_station)
                / ((max 1 ⌈(engineW.end_station - engineW.start_station)
                    / engineW.post_spacing⌉ : ℤ) : ℚ))) ∧
      List.Chain' (fun p q : SteelPost => p.station < q.station)
        layout.posts ∧
      List.Chain' (fun p q : SteelPost =>
        q.station - p.station ≤ engineW.post_spacing + tol6)
        layout.posts) := by
  obtain ⟨layout, hc⟩ := Option.isSome_iff_exists.mp
    (compute_isSome trivialTrig engineW alignB_wf)
  exact ⟨layout, hc, c5_uniform_post_stations trivialTrig engineW layout
    engineW_spacing engineW_range hc⟩

theorem bays_length (T : Trig) (eng : WallLayoutEngine)
    (posts : List SteelPost) (footings : List Footing) (bays : List Bay)
    (joints : List Joint)
    (hp : eng.precastParts T = some (posts, footings, bays, joints)) :
    bays.length = posts.length - 1 := by
  obtain ⟨-, -, hbeq, -⟩ := precastParts_eq T eng posts footings bays joints hp
  rw [hbeq]
  simp [List.length_zip]

/-- Claim C6: for every bay of a computed layout, with `ground` the lower
of the two posts' ground elevations and `top` the higher of their top
elevations, the bay has exactly `max 1 ⌈(top - ground - cap_height) /
panel_height⌉` panels with bottom elevations `ground + k * panel_height`,
every panel's top elevation is its bottom plus the panel height, and the
cap bottom sits at `ground + n * panel_height` for the bay's panel count
`n`. -/
theorem c6_bay_panels_and_cap (T : Trig) (eng : WallLayoutEngine)
    (layout : WallLayout) (hc : eng.compute T = some layout) :
    ∀ bay ∈ layout.bays,
      bay.panels.length
        = (max 1 ⌈(max bay.post_left.top_elevation
            bay.post_right.top_elevation
            - min bay.post_left.ground_elevation
              bay.post_right.ground_elevation
            - CAP_HEIGHT) / PANEL_HEIGHT⌉).toNat ∧
      (∀ k (hk : k < bay.panels.length),
        (bay.panels.get ⟨k, hk⟩).bottom_elevation
          = min bay.post_left.ground_elevation
              bay.post_right.ground_elevation + (k : ℚ) * PANEL_HEIGHT ∧
        (bay.panels.get ⟨k, hk⟩).top_elevation
          = (bay.panels.get ⟨k, hk⟩).bottom_elevation + PANEL_HEIGHT) ∧
      (∃ c, bay.cap = some c ∧
        c.bottom_elevation
          = min bay.post_left.ground_elevation
              bay.post_right.ground_elevation
            + (bay.panels.length : ℚ) * PANEL_HEIGHT) := by
  intro bay hmem
  obtain ⟨posts, footings, bays, joints, hp, -, -, hbays, -, -, -, -⟩ :=
    compute_eq_parts T eng layout hc
  obtain ⟨-, -, hbeq, -⟩ := precastParts_eq T eng posts footings bays joints hp
  rw [hbays, hbeq] at hmem
  obtain ⟨b0, hb0mem, rfl⟩ := List.mem_map.mp hmem
  obtain ⟨ilr, -, rfl⟩ := List.mem_map.mp hb0mem
  obtain ⟨hl, hr, hlen, hbot, ⟨c, hcap, hcapbot⟩, -⟩ :=
    make_bay_parts T eng ilr.1 ilr.2.1 ilr.2.2 (posts.map eng.make_footing)
  have hpan : (attachJoints (jointsWalk posts 0 0 0)
      (eng.make_bay T ilr.1 ilr.2.1 ilr.2.2
        (posts.map eng.make_footing))).panels
      = (eng.make_bay T ilr.1 ilr.2.1 ilr.2.2
        (posts.map eng.make_footing)).panels := rfl
  have hcap' : (attachJoints (jointsWalk posts 0 0 0)
      (eng.make_bay T ilr.1 ilr.2.1 ilr.2.2
        (posts.map eng.make_footing))).cap
      = (eng.make_bay T ilr.1 ilr.2.1 ilr.2.2
        (posts.map eng.make_footing)).cap := rfl
  have hpl : (attachJoints (jointsWalk posts 0 0 0)
      (eng.make_bay T ilr.1 ilr.2.1 ilr.2.2
        (posts.map eng.make_footing))).post_left = ilr.2.1 := hl
  have hpr : (attachJoints (jointsWalk posts 0 0 0)
      (eng.make_bay T ilr.1 ilr.2.1 ilr.2.2
        (posts.map eng.make_footing))).post_right = ilr.2.2 := hr
  rw [hpan, hcap', hpl, hpr]
  refine ⟨hlen, ?_, c, hcap, ?_⟩
  · intro k hk
    obtain ⟨hb, hh⟩ := hbot k hk
    refine ⟨hb, ?_⟩
    unfold PrecastPanel.top_elevation
    rw [hh]
  · rw [hcapbot, hlen]

/-- Witness for claim C6's theorem: the single bay of the concrete engine
`engineW`. -/
theorem c6_bay_panels_and_cap_witness :
    ∃ layout bay, engineW.compute trivialTrig = some layout ∧
      bay ∈ layout.bays ∧
      bay.panels.length
        = (max 1 ⌈(max bay.post_left.top_elevation
            bay.post_right.top_elevation
            - min bay.post_left.ground_elevation
              bay.post_right.ground_elevation
            - CAP_HEIGHT) / PANEL_HEIGHT⌉).toNat := by
  obtain ⟨layout, hc⟩ := Option.isSome_iff_exists.mp
    (compute_isSome trivialTrig engineW alignB_wf)
  obtain ⟨posts, footings, bays, joints, hp, hpost, -, hbays, -, -, -, -⟩ :=
    compute_eq_parts trivialTrig engineW layout hc
  obtain ⟨hmapm, -, -, -⟩ :=
    precastParts_eq trivialTrig engineW posts footings bays joints hp
  have hstart : engineW.start_station = 0 := by
    norm_num [engineW, mkWallLayoutEngine, pyOrQ, alignB, lineB,
      HorizontalAlignment.start_station, AlignmentSegment.start_station]
  have hend : engineW.end_station = 3 := by
    norm_num [engineW, mkWallLayoutEngine, pyOrQ, alignB, lineB,
      HorizontalAlignment.end_station, AlignmentSegment.end_station,
      List.getLast?_singleton]
  have hstlen : engineW.compute_post_stations.length = 2 := by
    have hps : engineW.post_spacing = 3.048 := by
      norm_num [engineW, mkWallLayoutEngine, POST_SPACING_MAX]
    have hce : ⌈(engineW.end_station - engineW.start_station)
        / engineW.post_spacing⌉ = 1 := by
      rw [hstart, hend, hps]
      rw [show ((3 : ℚ) - 0) / 3.048 = 125 / 127 by norm_num]
      rw [Int.ceil_eq_iff] <;> norm_num
    unfold WallLayoutEngine.compute_post_stations
    simp only [List.length_map, List.length_range]
    rw [hce]
    rfl
  have hplen : posts.length = 2 := by
    have h1 := mapM_some_length _ _ _ hmapm
    rw [h1, List.enum_length, hstlen]
  have hblen : bays.length = 1 := by
    rw [bays_length trivialTrig engineW posts footings bays joints hp, hplen]
  have hpos : 0 < layout.bays.length := by rw [hbays, hblen]; norm_num
  obtain ⟨bay, hmem⟩ := List.exists_mem_of_length_pos hpos
  exact ⟨layout, bay, hc, hmem,
    (c6_bay_panels_and_cap trivialTrig engineW layout hc bay hmem).1⟩

theorem make_footing_fields (eng : WallLayoutEngine) (post : SteelPost) :
    (eng.make_footing post).easting = post.easting ∧
    (eng.make_footing post).northing = post.northing ∧
    (eng.make_footing post).top_elevation = post.ground_elevation ∧
    (eng.make_footing post).station = post.station ∧
    (eng.make_footing post).post_index = post.index ∧
    (eng.foundation_type = .CAISSON →
      (eng.make_footing post).foundation_type = .CAISSON ∧
      (eng.make_footing post).diameter = CAISSON_DIAMETER ∧
      (eng.make_footing post).depth = CAISSON_DEPTH) ∧
    (eng.foundation_type ≠ .CAISSON →
      (eng.make_footing post).foundation_type = .SPREAD_FOOTING ∧
      (eng.make_footing post).width = SPREAD_WIDTH ∧
      (eng.make_footing post).length = SPREAD_LENGTH ∧
      (eng.make_footing post).depth = SPREAD_DEPTH) := by
  unfold WallLayoutEngine.make_footing make_caisson make_spread_footing
  by_cases hf : eng.foundation_type = .CAISSON
  · rw [if_pos hf]
    refine ⟨rfl, rfl, rfl, rfl, rfl, fun _ => ⟨rfl, rfl, rfl⟩, fun hn => ?_⟩
    exact absurd hf hn
  · rw [if_neg hf]
    exact ⟨rfl, rfl, rfl, rfl, rfl, fun hy => absurd hy hf,
      fun _ => ⟨rfl, rfl, rfl, rfl⟩⟩

/-- Claim C4 amended: for every computed layout there is exactly one
footing per post, placed at the post's (E, N) with top elevation the
post's ground elevation; a CAISSON configuration gives caissons of
diameter 0.762 and depth 3.048, while every other configured foundation
type — SPREAD and also CONTINUOUS, which falls into the `else` branch of
`_make_footing` — gives a spread footing 1.524 x 1.524 x 0.762. -/
theorem c4_footings_follow_posts (T : Trig) (eng : WallLayoutEngine)
    (layout : WallLayout) (hc : eng.compute T = some layout) :
    layout.footings.length = layout.posts.length ∧
    ∀ k (hk : k < layout.footings.length) (hp : k < layout.posts.length),
      (layout.footings.get ⟨k, hk⟩).easting
        = (layout.posts.get ⟨k, hp⟩).easting ∧
      (layout.footings.get ⟨k, hk⟩).northing
        = (layout.posts.get ⟨k, hp⟩).northing ∧
      (layout.footings.get ⟨k, hk⟩).top_elevation
        = (layout.posts.get ⟨k, hp⟩).ground_elevation ∧
      (layout.footings.get ⟨k, hk⟩).station
        = (layout.posts.get ⟨k, hp⟩).station ∧
      (eng.foundation_type = .CAISSON →
        (layout.footings.get ⟨k, hk⟩).foundation_type = .CAISSON ∧
        (layout.footings.get ⟨k, hk⟩).diameter = CAISSON_DIAMETER ∧
        (layout.footings.get ⟨k, hk⟩).depth = CAISSON_DEPTH) ∧
      (eng.foundation_type ≠ .CAISSON →
        (layout.footings.get ⟨k, hk⟩).foundation_type = .SPREAD_FOOTING ∧
        (layout.footings.get ⟨k, hk⟩).width = SPREAD_WIDTH ∧
        (layout.footings.get ⟨k, hk⟩).length = SPREAD_LENGTH ∧
        (layout.footings.get ⟨k, hk⟩).depth = SPREAD_DEPTH) := by
  obtain ⟨posts, footings, bays, joints, hp, hpost, hfoot, -, -, -, -, -⟩ :=
    compute_eq_parts T eng layout hc
  obtain ⟨-, hfeq, -, -⟩ := precastParts_eq T eng posts footings bays joints hp
  constructor
  · rw [hpost, hfoot, hfeq, List.length_map]
  · intro k hk hkp
    have hget : layout.footings.get ⟨k, hk⟩
        = eng.make_footing (layout.posts.get ⟨k, hkp⟩) := by
      subst hfoot
      subst hpost
      rw [List.get_of_eq hfeq ⟨k, hk⟩]
      simp
    rw [hget]
    exact ⟨(make_footing_fields eng _).1, (make_footing_fields eng _).2.1,
      (make_footing_fields eng _).2.2.1, (make_footing_fields eng _).2.2.2.1,
      (make_footing_fields eng _).2.2.2.2.2.1,
      (make_footing_fields eng _).2.2.2.2.2.2⟩

/-- Claim C4 counterexample: with CONTINUOUS foundations configured, the
engine emits SPREAD footings with the spread dimensions (the `else` branch
of `_make_footing`), not continuous footings of width 0.914. -/
theorem c4_counterexample :
    ∃ layout, engineCont.compute trivialTrig = some layout ∧
      layout.footings ≠ [] ∧
      (∀ f ∈ layout.footings,
        f.foundation_type = FoundationType.SPREAD_FOOTING ∧
        f.width = SPREAD_WIDTH) ∧
      engineCont.foundation_type = FoundationType.CONTINUOUS_FOOTING ∧
      FoundationType.SPREAD_FOOTING ≠ FoundationType.CONTINUOUS_FOOTING ∧
      SPREAD_WIDTH ≠ CONTINUOUS_WIDTH := by
  have hwf : AlignmentWF engineCont.alignment := alignB_wf
  obtain ⟨layout, hc⟩ := Option.isSome_iff_exists.mp
    (compute_isSome trivialTrig engineCont hwf)
  obtain ⟨posts, footings, bays, joints, hp, hpost, hfoot, -, -, -, -, -⟩ :=
    compute_eq_parts trivialTrig engineCont layout hc
  obtain ⟨hmapm, hfeq, -, -⟩ :=
    precastParts_eq trivialTrig engineCont posts footings bays joints hp
  have hcont : engineCont.foundation_type
      = FoundationType.CONTINUOUS_FOOTING := rfl
  have hne : engineCont.foundation_type ≠ FoundationType.CAISSON := by
    rw [hcont]; intro h; cases h
  refine ⟨layout, hc, ?_, ?_, hcont, ?_, ?_⟩
  · have hlen : posts.length = 2 := by
      have h1 := mapM_some_length _ _ _ hmapm
      rw [h1, List.enum_length]
      have hstart : engineCont.start_station = 0 := by
        norm_num [engineCont, mkWallLayoutEngine, pyOrQ, alignB, lineB,
          HorizontalAlignment.start_station, AlignmentSegment.start_station]
      have hend : engineCont.end_station = 3 := by
        norm_num [engineCont, mkWallLayoutEngine, pyOrQ, alignB, lineB,
          HorizontalAlignment.end_station, AlignmentSegment.end_station,
          List.getLast?_singleton]
      have hps : engineCont.post_spacing = 3.048 := by
        norm_num [engineCont, mkWallLayoutEngine, POST_SPACING_MAX]
      have hce : ⌈(engineCont.end_station - engineCont.start_station)
          / engineCont.post_spacing⌉ = 1 := by
        rw [hstart, hend, hps]
        rw [show ((3 : ℚ) - 0) / 3.048 = 125 / 127 by norm_num]
        rw [Int.ceil_eq_iff] <;> norm_num
      unfold WallLayoutEngine.compute_post_stations
      simp only [List.length_map, List.length_range]
      rw [hce]
      rfl
    rw [hfoot, hfeq]
    intro hnil
    have := congrArg List.length hnil
    simp [hlen] at this
  · intro f hf
    rw [hfoot, hfeq] at hf
    obtain ⟨post, -, rfl⟩ := List.mem_map.mp hf
    have hfields := (make_footing_fields engineCont post).2.2.2.2.2.2 hne
    exact ⟨hfields.1, hfields.2.1⟩
  · intro h; cases h
  · norm_num [SPREAD_WIDTH, CONTINUOUS_WIDTH]

/-- Witness for claim C4's amended theorem at the concrete engine
`engineCont`. -/
theorem c4_footings_follow_posts_witness :
    ∃ layout, engineCont.compute trivialTrig = some layout ∧
      layout.footings.length = layout.posts.length := by
  obtain ⟨layout, hc⟩ := Option.isSome_iff_exists.mp
    (compute_isSome trivialTrig engineCont alignB_wf)
  exact ⟨layout, hc,
    (c4_footings_follow_posts trivialTrig engineCont layout hc).1⟩

theorem jointsWalk_firstExp (M : ℚ) :
    ∀ (posts : List SteelPost) (i : ℕ) (d0 dc : ℚ) (h0 : SteelPost)
      (f : Joint),
      List.Chain' (fun l r : SteelPost =>
        0 < r.station - l.station ∧ r.station - l.station ≤ M) posts →
      d0 < EXPANSION_JOINT_SPACING →
      posts.head? = some h0 →
      ((jointsWalk posts i d0 dc).filter
        (fun j => j.joint_type == JointType.EXPANSION)).head? = some f →
      EXPANSION_JOINT_SPACING ≤ d0 + (f.station - h0.station) ∧
      d0 + (f.station - h0.station) < EXPANSION_JOINT_SPACING + M := by
  intro posts
  induction posts with
  | nil =>
    intro i d0 dc h0 f _ _ _ hf
    simp [jointsWalk] at hf
  | cons l rest ih =>
    intro i d0 dc h0 f hch hd0 hh hf
    simp only [List.head?_cons, Option.some.injEq] at hh
    subst hh
    cases rest with
    | nil => simp [jointsWalk] at hf
    | cons r rest' =>
      have hlr := (List.chain'_cons.mp hch).1
      have hch' := (List.chain'_cons.mp hch).2
      unfold jointsWalk at hf
      simp only [] at hf
      by_cases hde : d0 + (r.station - l.station) ≥ EXPANSION_JOINT_SPACING
      · rw [if_pos hde] at hf
        rw [List.filter_cons_of_pos (by simp [jointFromPost])] at hf
        simp only [List.head?_cons, Option.some.injEq] at hf
        subst hf
        simp only [jointFromPost]
        constructor
        · linarith
        · linarith [hlr.1, hlr.2, hd0]
      · rw [if_neg hde] at hf
        by_cases hdc : dc + (r.station - l.station)
            ≥ CONTRACTION_JOINT_SPACING
        · rw [if_pos hdc] at hf
          rw [List.filter_cons_of_neg (by simp [jointFromPost])] at hf
          have := ih (i + 1) (d0 + (r.station - l.station)) 0 r f hch'
            (by push_neg at hde; exact hde) (by simp) hf
          constructor <;> linarith [this.1, this.2]
        · rw [if_neg hdc] at hf
          have := ih (i + 1) (d0 + (r.station - l.station))
            (dc + (r.station - l.station)) r f hch'
            (by push_neg at hde; exact hde) (by simp) hf
          constructor <;> linarith [this.1, this.2]

theorem jointsWalk_exp_chain (M : ℚ) :
    ∀ (posts : List SteelPost) (i : ℕ) (d0 dc : ℚ),
      List.Chain' (fun l r : SteelPost =>
        0 < r.station - l.station ∧ r.station - l.station ≤ M) posts →
      0 ≤ d0 → d0 < EXPANSION_JOINT_SPACING →
      List.Chain' (fun e f : Joint =>
        EXPANSION_JOINT_SPACING ≤ f.station - e.station ∧
        f.station - e.station < EXPANSION_JOINT_SPACING + M)
      ((jointsWalk posts i d0 dc).filter
        (fun j => j.joint_type == JointType.EXPANSION)) := by
  intro posts
  induction posts with
  | nil => intro i d0 dc _ _ _; simp [jointsWalk]
  | cons l rest ih =>
    intro i d0 dc hch hd0n hd0
    cases rest with
    | nil => simp [jointsWalk]
    | cons r rest' =>
      have hlr := (List.chain'_cons.mp hch).1
      have hch' := (List.chain'_cons.mp hch).2
      unfold jointsWalk
      simp only []
      by_cases hde : d0 + (r.station - l.station) ≥ EXPANSION_JOINT_SPACING
      · rw [if_pos hde]
        rw [List.filter_cons_of_pos (by simp [jointFromPost])]
        rw [List.chain'_cons']
        constructor
        · intro f hf
          have hb := jointsWalk_firstExp M (r :: rest') (i + 1) 0 0 r f hch'
            EXPANSION_JOINT_SPACING_pos (by simp) hf
          simp only [jointFromPost]
          constructor <;> linarith [hb.1, hb.2]
        · exact ih (i + 1) 0 0 hch' le_rfl EXPANSION_JOINT_SPACING_pos
      · rw [if_neg hde]
        by_cases hdc : dc + (r.station - l.station)
            ≥ CONTRACTION_JOINT_SPACING
        · rw [if_pos hdc]
          rw [List.filter_cons_of_neg (by simp [jointFromPost])]
          exact ih (i + 1) (d0 + (r.station - l.station)) 0 hch'
            (by linarith [hlr.1]) (by push_neg at hde; exact hde)
        · rw [if_neg hdc]
          exact ih (i + 1) (d0 + (r.station - l.station))
            (dc + (r.station - l.station)) hch'
            (by linarith [hlr.1]) (by push_neg at hde; exact hde)

theorem posts_station_chain (T : Trig) (eng : WallLayoutEngine)
    (posts : List SteelPost)
    (hmapm : eng.compute_post_stations.enum.mapM
      (fun ista => eng.make_post T ista.1 ista.2) = some posts)
    (hps : 0 < eng.post_spacing)
    (hrange : eng.start_station < eng.end_station) :
    List.Chain' (fun l r : SteelPost =>
      0 < r.station - l.station ∧
      r.station - l.station ≤ eng.post_spacing) posts := by
  have hstations := posts_map_station T eng posts hmapm
  have hst : eng.compute_post_stations
      = (List.range ((max 1 ⌈(eng.end_station - eng.start_station)
            / eng.post_spacing⌉).toNat + 1)).map
        (fun i : ℕ => eng.start_station + (i : ℚ)
          * ((eng.end_station - eng.start_station)
            / ((max 1 ⌈(eng.end_station - eng.start_station)
                / eng.post_spacing⌉ : ℤ) : ℚ))) := rfl
  have hL : 0 < eng.end_station - eng.start_station := by linarith
  obtain ⟨h1, hdpos, hdle⟩ :=
    spacing_bounds (eng.end_station - eng.start_station) eng.post_spacing
      hL hps
  have hmax : max 1 ⌈(eng.end_station - eng.start_station)
      / eng.post_spacing⌉ = ⌈(eng.end_station - eng.start_station)
      / eng.post_spacing⌉ := max_eq_right h1
  have hdpos' : 0 < (eng.end_station - eng.start_station)
      / ((max 1 ⌈(eng.end_station - eng.start_station)
          / eng.post_spacing⌉ : ℤ) : ℚ) := by rw [hmax]; exact hdpos
  have hdle' : (eng.end_station - eng.start_station)
      / ((max 1 ⌈(eng.end_station - eng.start_station)
          / eng.post_spacing⌉ : ℤ) : ℚ) ≤ eng.post_spacing := by
    rw [hmax]; exact hdle
  refine (@List.chain'_map ℚ SteelPost
    (fun a b : ℚ => 0 < b - a ∧ b - a ≤ eng.post_spacing)
    (fun p : SteelPost => p.station) posts).mp ?_
  rw [hstations, hst]
  refine (List.chain'_map _).mpr ?_
  refine (List.chain'_range_succ _ _).mpr ?_
  intro i _
  push_cast at hdpos' hdle' ⊢
  constructor
  · nlinarith [hdpos']
  · nlinarith [hdpos', hdle']

/-- Claim C2 amended: the joint walk accumulates each bay's STATION length
(`right.station - left.station`, not the chord between the posts) into both
counters; an expansion joint resets both, a contraction joint only the
contraction counter.  Consequently, for a configuration with positive
spacing and a forward range, the cumulative bay (station) length between
any two consecutive EXPANSION joints lies in
`[expansion_joint_spacing, expansion_joint_spacing + post_spacing)`. -/
theorem c2_expansion_joint_spacing (T : Trig) (eng : WallLayoutEngine)
    (layout : WallLayout) (hps : 0 < eng.post_spacing)
    (hrange : eng.start_station < eng.end_station)
    (hc : eng.compute T = some layout) :
    List.Chain' (fun e f : Joint =>
      EXPANSION_JOINT_SPACING ≤ f.station - e.station ∧
      f.station - e.station < EXPANSION_JOINT_SPACING + eng.post_spacing)
    (layout.joints.filter
      (fun j => j.joint_type == JointType.EXPANSION)) := by
  obtain ⟨posts, footings, bays, joints, hp, -, -, -, hjoints, -, -, -⟩ :=
    compute_eq_parts T eng layout hc
  obtain ⟨hmapm, -, -, hjeq⟩ :=
    precastParts_eq T eng posts footings bays joints hp
  rw [hjoints, hjeq]
  exact jointsWalk_exp_chain eng.post_spacing posts 0 0 0
    (posts_station_chain T eng posts hmapm hps hrange) le_rfl
    EXPANSION_JOINT_SPACING_pos

/-- Witness for claim C2's amended theorem at the concrete engine
`engineW`. -/
theorem c2_expansion_joint_spacing_witness :
    ∃ layout, engineW.compute trivialTrig = some layout ∧
      List.Chain' (fun e f : Joint =>
        EXPANSION_JOINT_SPACING ≤ f.station - e.station ∧
        f.station - e.station
          < EXPANSION_JOINT_SPACING + engineW.post_spacing)
      (layout.joints.filter
        (fun j => j.joint_type == JointType.EXPANSION)) := by
  obtain ⟨layout, hc⟩ := Option.isSome_iff_exists.mp
    (compute_isSome trivialTrig engineW alignB_wf)
  exact ⟨layout, hc, c2_expansion_joint_spacing trivialTrig engineW layout
    engineW_spacing engineW_range hc⟩

/-- The hairpin engine computes exactly two post stations, 0 and 16
(one 16 m bay, since post_spacing is configured to 16). -/
theorem hairpin_stations : engineHairpin.compute_post_stations = [0, 16] := by
  have hs : engineHairpin.start_station = 0 := by
    norm_num [engineHairpin, mkWallLayoutEngine, pyOrQ, hairpinAlign, segEast,
      HorizontalAlignment.start_station, AlignmentSegment.start_station]
  have he : engineHairpin.end_station = 16 := by
    norm_num [engineHairpin, mkWallLayoutEngine, pyOrQ, hairpinAlign, segEast,
      segWest, HorizontalAlignment.end_station, AlignmentSegment.end_station,
      List.getLast?_cons_cons, List.getLast?_singleton]
  have hp : engineHairpin.post_spacing = 16 := rfl
  unfold WallLayoutEngine.compute_post_stations
  simp only [hs, he, hp]
  norm_num [Int.ceil_one, List.range_succ]

/-- Evaluating `make_post` at station 0 of the hairpin alignment: the post
sits at the origin on the eastbound tangent. -/
theorem hairpin_post0 :
    engineHairpin.make_post hairpinTrig 0 0 = some postH0 := by
  norm_num [WallLayoutEngine.make_post, WallLayoutEngine.solver,
    WallLayoutEngine.sampler, StationSolver.solve,
    TerrainSampler.sample_at_station, HorizontalAlignment.point_at_station,
    segBrackets, AlignmentSegment.point_at_station,
    AlignmentSegment.start_station, AlignmentSegment.end_station,
    LineSegment.point_at_station, List.find?, engineHairpin,
    mkWallLayoutEngine, pyOrQ, hairpinAlign, segEast, segWest, hairpinTrig,
    tol6, offset_point, DEFAULT_WALL_HEIGHT, postH0, SteelPost.mk.injEq]

/-- Evaluating `make_post` at station 16 of the hairpin alignment: after
8 m east and 8 m back west the post again sits at the origin. -/
theorem hairpin_post1 :
    engineHairpin.make_post hairpinTrig 1 16 = some postH1 := by
  norm_num [WallLayoutEngine.make_post, WallLayoutEngine.solver,
    WallLayoutEngine.sampler, StationSolver.solve,
    TerrainSampler.sample_at_station, HorizontalAlignment.point_at_station,
    segBrackets, AlignmentSegment.point_at_station,
    AlignmentSegment.start_station, AlignmentSegment.end_station,
    LineSegment.point_at_station, List.find?, engineHairpin,
    mkWallLayoutEngine, pyOrQ, hairpinAlign, segEast, segWest, hairpinTrig,
    tol6, offset_point, DEFAULT_WALL_HEIGHT, postH1, SteelPost.mk.injEq]

/-- The hairpin engine's full post list is `[postH0, postH1]`. -/
theorem hairpin_mapm : engineHairpin.compute_post_stations.enum.mapM
    (fun ista => engineHairpin.make_post hairpinTrig ista.1 ista.2)
    = some [postH0, postH1] := by
  rw [hairpin_stations]
  show ([((0 : ℕ), (0 : ℚ)), (1, 16)]).mapM
    (fun ista => engineHairpin.make_post hairpinTrig ista.1 ista.2)
    = some [postH0, postH1]
  rw [List.mapM_cons, List.mapM_cons, List.mapM_nil]
  simp only [hairpin_post0, hairpin_post1, Option.pure_def, Option.some_bind]
  rfl

/-- Counterexample to claim C2's description of the joint walk: the claim
says each bay contributes its CHORD length (2-D distance between its two
posts) to the joint counters. On the hairpin alignment the two posts of
the single 16 m bay coincide geometrically (both at the origin), so the
chord length is 0 and a chord-accumulating walk would emit no joint; yet
the engine, which accumulates the STATION difference
`right.station - left.station`, emits a CONTRACTION joint
(16 ≥ 6.096 m). -/
theorem c2_counterexample :
    ∃ layout, engineHairpin.compute hairpinTrig = some layout ∧
      layout.posts.map (fun p => (p.easting, p.northing))
        = [(0, 0), (0, 0)] ∧
      layout.joints.map (fun j => j.joint_type) = [JointType.CONTRACTION] ∧
      jointsWalkChordSpec hairpinTrig layout.posts 0 0 0 = [] := by
  obtain ⟨layout, hc⟩ := Option.isSome_iff_exists.mp
    (compute_isSome hairpinTrig engineHairpin hairpin_wf)
  obtain ⟨posts, footings, bays, joints, hp, hpost, -, -, hjoints, -, -, -⟩ :=
    compute_eq_parts hairpinTrig engineHairpin layout hc
  obtain ⟨hmapm, -, -, hjeq⟩ :=
    precastParts_eq hairpinTrig engineHairpin posts footings bays joints hp
  have hposts : posts = [postH0, postH1] :=
    Option.some.inj (hmapm.symm.trans hairpin_mapm)
  refine ⟨layout, hc, ?_, ?_, ?_⟩
  · rw [hpost, hposts]; norm_num [postH0, postH1]
  · rw [hjoints, hjeq, hposts]
    norm_num [jointsWalk, jointFromPost, postH0, postH1,
      EXPANSION_JOINT_SPACING, CONTRACTION_JOINT_SPACING]
  · rw [hpost, hposts]
    norm_num [jointsWalkChordSpec, jointFromPost, hairpinTrig, postH0, postH1,
      EXPANSION_JOINT_SPACING, CONTRACTION_JOINT_SPACING]

/-- Advancing the loop variable by one interval decrements the floor of
the remaining-iterations measure of `solve_range` by exactly one. -/
theorem floor_step (end_station interval sta : ℚ) (hi : 0 < interval) :
    ⌊(end_station + tol6 - (sta + interval)) / interval⌋
      = ⌊(end_station + tol6 - sta) / interval⌋ - 1 := by
  have hsub : (end_station + tol6 - (sta + interval)) / interval
      = (end_station + tol6 - sta) / interval - 1 := by
    field_simp
    ring
  have hsub' : (end_station + tol6 - sta) / interval - 1
      = (end_station + tol6 - sta) / interval - ((1 : ℤ) : ℚ) := by norm_num
  rw [hsub, hsub', Int.floor_sub_int]

/-- On a wellformed alignment the `solve_range` loop body never raises, so
the whole loop returns a list (induction on the iteration count). -/
theorem solveRangeAux_isSome (T : Trig) (solver : StationSolver)
    (hwf : AlignmentWF solver.alignment)
    (end_station interval offset : ℚ) (hi : 0 < interval) :
    ∀ (n : ℕ) (sta : ℚ),
      (⌊(end_station + tol6 - sta) / interval⌋ + 1).toNat = n →
      (solveRangeAux T solver end_station interval offset sta).isSome := by
  intro n
  induction n with
  | zero =>
    intro sta hn
    have hgt : end_station + tol6 < sta := by
      by_contra hc
      push_neg at hc
      have h0 : 0 ≤ ⌊(end_station + tol6 - sta) / interval⌋ :=
        Int.floor_nonneg.mpr (div_nonneg (by linarith) hi.le)
      omega
    unfold solveRangeAux
    rw [dif_neg (by rintro ⟨-, h2⟩; linarith)]
    rfl
  | succ m ih =>
    intro sta hn
    by_cases hle : sta ≤ end_station + tol6
    · unfold solveRangeAux
      rw [dif_pos ⟨hi, hle⟩]
      have hsol := solve_isSome T solver hwf (min sta end_station) offset
      cases hs : solver.solve T (min sta end_station) offset with
      | none => rw [hs] at hsol; simp at hsol
      | some pt =>
        have hn' : (⌊(end_station + tol6 - (sta + interval)) / interval⌋
            + 1).toNat = m := by
          have hfl := floor_step end_station interval sta hi
          have h0 : 0 ≤ ⌊(end_station + tol6 - sta) / interval⌋ :=
            Int.floor_nonneg.mpr (div_nonneg (by linarith) hi.le)
          omega
        have hrec := ih (sta + interval) hn'
        cases hr : solveRangeAux T solver end_station interval offset
            (sta + interval) with
        | none => rw [hr] at hrec; simp at hrec
        | some pts => simp [hr]
    · unfold solveRangeAux
      rw [dif_neg (by rintro ⟨-, h2⟩; exact hle h2)]
      rfl

/-- `solve_range` returns a list (never raises) on a wellformed alignment
with a positive interval. -/
theorem solve_range_isSome (T : Trig) (solver : StationSolver)
    (hwf : AlignmentWF solver.alignment)
    (s0 s1 interval offset : ℚ) (hi : 0 < interval) :
    (solver.solve_range T s0 s1 interval offset).isSome :=
  solveRangeAux_isSome T solver hwf s1 interval offset hi _ s0 rfl

/-- Station list produced by the `solve_range` loop starting at `sta`:
iteration `k` samples at `min (sta + k·Δ) end_station`, and the loop runs
`⌊(end_station + 1e-6 − sta)/Δ⌋ + 1` times (0 when the range is empty). -/
theorem solveRangeAux_stations (T : Trig) (solver : StationSolver)
    (end_station interval offset : ℚ) (hi : 0 < interval) :
    ∀ (n : ℕ) (sta : ℚ) (pts : List StationPoint),
      (⌊(end_station + tol6 - sta) / interval⌋ + 1).toNat = n →
      solveRangeAux T solver end_station interval offset sta = some pts →
      pts.map (fun p => p.station)
        = (List.range n).map
            (fun (k : ℕ) => min (sta + (k : ℚ) * interval) end_station) := by
  intro n
  induction n with
  | zero =>
    intro sta pts hn haux
    have hgt : end_station + tol6 < sta := by
      by_contra hc
      push_neg at hc
      have h0 : 0 ≤ ⌊(end_station + tol6 - sta) / interval⌋ :=
        Int.floor_nonneg.mpr (div_nonneg (by linarith) hi.le)
      omega
    unfold solveRangeAux at haux
    rw [dif_neg (by rintro ⟨-, h2⟩; linarith)] at haux
    have hnil : pts = [] := (Option.some.inj haux).symm
    subst hnil
    rfl
  | succ m ih =>
    intro sta pts hn haux
    have hle : sta ≤ end_station + tol6 := by
      by_contra hc
      push_neg at hc
      have hneg : ⌊(end_station + tol6 - sta) / interval⌋ < 0 := by
        rw [Int.floor_lt]
        push_cast
        exact div_neg_of_neg_of_pos (by linarith) hi
      omega
    unfold solveRangeAux at haux
    rw [dif_pos ⟨hi, hle⟩] at haux
    cases hsolve : solver.solve T (min sta end_station) offset with
    | none => rw [hsolve] at haux; exact absurd haux (by simp)
    | some pt =>
      rw [hsolve] at haux
      rw [Option.map_eq_some'] at haux
      obtain ⟨pts', haux', hcons⟩ := haux
      have hn' : (⌊(end_station + tol6 - (sta + interval)) / interval⌋
          + 1).toNat = m := by
        have hfl := floor_step end_station interval sta hi
        have h0 : 0 ≤ ⌊(end_station + tol6 - sta) / interval⌋ :=
          Int.floor_nonneg.mpr (div_nonneg (by linarith) hi.le)
        omega
      have ihm := ih (sta + interval) pts' hn' haux'
      subst hcons
      rw [List.map_cons]
      have hst : pt.station = min sta end_station :=
        solve_station T solver (min sta end_station) offset pt hsolve
      rw [hst, ihm, List.range_succ_eq_map, List.map_cons, List.map_map]
      congr 1
      · norm_num
      · apply List.map_congr_left
        intro k hk
        simp only [Function.comp_apply]
        congr 1
        push_cast
        ring

/-- Claim C9 (amended): for `s0 ≤ s1` and `Δ > 0`, `solve_range(s0, s1, Δ)`
samples at stations `min (s0 + k·Δ) s1` for
`k = 0 … ⌊(s1 + 1e-6 − s0)/Δ⌋`, starting at `s0`; samples past `s1` are
clamped to `s1`, but no extra final sample at `s1` is appended, so the
last station is `s1` only when `s0 + k·Δ` reaches `s1` within the loop. -/
theorem c9_solve_range_stations (T : Trig) (solver : StationSolver)
    (s0 s1 interval offset : ℚ) (pts : List StationPoint)
    (hi : 0 < interval) (hle : s0 ≤ s1)
    (h : solver.solve_range T s0 s1 interval offset = some pts) :
    pts.map (fun p => p.station)
      = (List.range (⌊(s1 + tol6 - s0) / interval⌋ + 1).toNat).map
          (fun (k : ℕ) => min (s0 + (k : ℚ) * interval) s1) ∧
    pts.head?.map (fun p => p.station) = some s0 := by
  have hmap := solveRangeAux_stations T solver s1 interval offset hi _ s0 pts
    rfl h
  refine ⟨hmap, ?_⟩
  have h0 : 0 ≤ ⌊(s1 + tol6 - s0) / interval⌋ :=
    Int.floor_nonneg.mpr (div_nonneg (by have := tol6_pos; linarith) hi.le)
  obtain ⟨m, hm⟩ : ∃ m, (⌊(s1 + tol6 - s0) / interval⌋ + 1).toNat = m + 1 :=
    ⟨(⌊(s1 + tol6 - s0) / interval⌋ + 1).toNat - 1, by omega⟩
  rw [hm, List.range_succ_eq_map, List.map_cons] at hmap
  cases pts with
  | nil => simp at hmap
  | cons p rest =>
    rw [List.map_cons] at hmap
    have hp : p.station = min (s0 + ((0 : ℕ) : ℚ) * interval) s1 :=
      (List.cons.injEq _ _ _ _ ▸ hmap).1
    rw [List.head?_cons, Option.map_some']
    rw [hp]
    norm_num [min_eq_left hle]

/-- The loop from station 0 to 10 at interval 3 runs exactly 4 times. -/
theorem nSteps_0_10_3 : ((⌊((10 : ℚ) + tol6 - 0) / 3⌋ + 1)).toNat = 4 := by
  have hq : ((10 : ℚ) + tol6 - 0) / 3 = 10000001 / 3000000 := by
    norm_num [tol6]
  rw [hq]
  have h3 : ⌊(10000001 : ℚ) / 3000000⌋ = 3 := by
    rw [Int.floor_eq_iff] <;> norm_num
  rw [h3]
  rfl

/-- The clamped station formula at `s0 = 0`, `s1 = 10`, `Δ = 3`
evaluates to `[0, 3, 6, 9]`. -/
theorem rangeMap_0_10_3 :
    (List.range 4).map (fun (k : ℕ) => min ((0 : ℚ) + (k : ℚ) * 3) 10)
      = [0, 3, 6, 9] := by
  norm_num [List.range_succ, min_def]

/-- Witness for claim C9's amended theorem: `solve_range(0, 10, 3)` on the
concrete solver `solverA` samples `[0, 3, 6, 9]` starting at 0. -/
theorem c9_solve_range_stations_witness :
    ∃ pts, solverA.solve_range trivialTrig 0 10 3 0 = some pts ∧
      pts.map (fun p => p.station) = [0, 3, 6, 9] ∧
      pts.head?.map (fun p => p.station) = some 0 := by
  obtain ⟨pts, h⟩ := Option.isSome_iff_exists.mp
    (solve_range_isSome trivialTrig solverA alignA_wf 0 10 3 0 (by norm_num))
  obtain ⟨hmap, hhead⟩ := c9_solve_range_stations trivialTrig solverA 0 10 3 0
    pts (by norm_num) (by norm_num) h
  refine ⟨pts, h, ?_, hhead⟩
  rw [hmap, nSteps_0_10_3, rangeMap_0_10_3]

/-- Counterexample to claim C9: with `s0 = 0`, `s1 = 10`, `Δ = 3` the
samples are at stations 0, 3, 6, 9 — the loop exits before reaching 10,
and NO final sample at `s1 = 10` is produced (the claim promises one). -/
theorem c9_counterexample :
    ∃ pts, solverA.solve_range trivialTrig 0 10 3 0 = some pts ∧
      pts.map (fun p => p.station) = [0, 3, 6, 9] ∧
      ∀ p ∈ pts, p.station ≠ 10 := by
  obtain ⟨pts, h⟩ := Option.isSome_iff_exists.mp
    (solve_range_isSome trivialTrig solverA alignA_wf 0 10 3 0 (by norm_num))
  have hmap := solveRangeAux_stations trivialTrig solverA 10 3 0 (by norm_num)
    _ 0 pts rfl h
  rw [nSteps_0_10_3, rangeMap_0_10_3] at hmap
  refine ⟨pts, h, hmap, ?_⟩
  intro p hp
  have hmem : p.station ∈ ([0, 3, 6, 9] : List ℚ) :=
    hmap ▸ List.mem_map_of_mem (fun p => p.station) hp
  simp only [List.mem_cons, List.not_mem_nil, or_false] at hmem
  rcases hmem with h1 | h1 | h1 | h1 <;> rw [h1] <;> norm_num

/-- Witness for claim C8 at the concrete alignment `alignA` and the
out-of-range station −1: the lookup succeeds and clamps to the first
segment's start point. -/
theorem c8_point_at_station_dispatch_witness :
    (alignA.point_at_station trivialTrig (-1)).isSome ∧
    alignA.point_at_station trivialTrig (-1)
      = some ((AlignmentSegment.line lineA).point_at_station trivialTrig 0) := by
  obtain ⟨h1, h2, h3, h4⟩ :=
    c8_point_at_station_dispatch trivialTrig alignA alignA_wf (-1)
  exact ⟨h1, h2 (AlignmentSegment.line lineA) rfl
    (by norm_num [AlignmentSegment.start_station, lineA])⟩

end GdotSoundwall
